import Mathlib

set_option maxRecDepth 8000

/-!
Verification of the PatternLang compiler pipeline (lexer, semantic analyzer,
TAC generator, optimizer, code generator, tree-walking interpreter).

Each definition is a shallow embedding of the corresponding C++ function,
with the source file and function named in its doc comment.  C++ `int`,
`long long` and loop counters are modelled by `Int`/`Nat`; none of the
properties proved here depends on machine-width overflow.  C++ functions
that report an error and `exit(1)` are modelled in an `Except` monad;
potentially non-terminating interpreter loops take an explicit fuel
argument and return a distinguished out-of-fuel result.
-/

/-- TAC instruction record, from `src/ir.h` (`struct TAC`): an op mnemonic,
two argument operands, a result operand, and a label flag.  Default field
values mirror default-constructed `std::string` / `false`. -/
structure TAC where
  op : String := ""
  arg1 : String := ""
  arg2 : String := ""
  res : String := ""
  isLabel : Bool := false
deriving DecidableEq, Repr

namespace Optimizer

/-- `Optimizer::isTemp` (optimizer.cpp): nonempty, first char `t`, second
char a digit. -/
def isTemp (s : String) : Bool :=
  match s.data with
  | c :: d :: _ => c == 't' && d.isDigit
  | _ => false

/-- `Optimizer::isIntLiteral` (optimizer.cpp): optional leading `-` (not
alone), then digits only, nonempty. -/
def isIntLiteral (s : String) : Bool :=
  match s.data with
  | [] => false
  | '-' :: rest => !rest.isEmpty && rest.all Char.isDigit
  | l => l.all Char.isDigit

/-- `Optimizer::isBoolLiteral` (optimizer.cpp). -/
def isBoolLiteral (s : String) : Bool :=
  s == "true" || s == "false"

/-- `Optimizer::isQuotedString` (optimizer.cpp): length at least 2 and both
ends are a double quote. -/
def isQuotedString (s : String) : Bool :=
  decide (s.data.length ≥ 2) && s.data.head? == some '"' && s.data.getLast? == some '"'

/-- Digit-string value, used to model `stoll`. -/
def digitsVal (l : List Char) : Nat :=
  l.foldl (fun acc c => acc * 10 + (c.toNat - '0'.toNat)) 0

/-- `Optimizer::toInt` (optimizer.cpp): `stoll`, 0 on failure.  It is only
reached on strings accepted by `isIntLiteral` (optional sign + digits),
which this parser handles exactly; `long long` overflow is not modelled. -/
def toInt (s : String) : Int :=
  match s.data with
  | '-' :: rest => - (digitsVal rest : Int)
  | l => (digitsVal l : Int)

/-- One instruction of `Optimizer::constantFold` (optimizer.cpp lines
54-107): fold a binary op whose operands are both integer literals (or both
boolean literals, for the four logical/equality ops) into an `assign`.
Comparison results are `long long` 0/1, rendered as `"0"`/`"1"`.  Returns
the new instruction and whether it changed. -/
def foldIntOp (op : String) (a b : Int) : Option Int :=
  if op = "+" then some (a + b)
  else if op = "-" then some (a - b)
  else if op = "*" then some (a * b)
  else if op = "/" then (if b = 0 then none else some (Int.tdiv a b))
  else if op = "%" then (if b = 0 then none else some (Int.tmod a b))
  else if op = "<" then some (if a < b then 1 else 0)
  else if op = ">" then some (if a > b then 1 else 0)
  else if op = "<=" then some (if a ≤ b then 1 else 0)
  else if op = ">=" then some (if a ≥ b then 1 else 0)
  else if op = "==" then some (if a = b then 1 else 0)
  else if op = "!=" then some (if a ≠ b then 1 else 0)
  else none

def foldBoolOp (op : String) (a b : Bool) : Bool :=
  if op = "&&" then a && b
  else if op = "||" then a || b
  else if op = "==" then a == b
  else a != b

def foldInstr (t : TAC) : TAC × Bool :=
  if t.isLabel then (t, false)
  else if t.op = "" then (t, false)
  else if t.arg2 ≠ "" then
    if isIntLiteral t.arg1 && isIntLiteral t.arg2 then
      match foldIntOp t.op (toInt t.arg1) (toInt t.arg2) with
      | some r => ({ t with op := "assign", arg1 := Int.repr r, arg2 := "" }, true)
      | none => (t, false)
    else if isBoolLiteral t.arg1 && isBoolLiteral t.arg2 then
      if t.op = "&&" || t.op = "||" || t.op = "==" || t.op = "!=" then
        let outv := foldBoolOp t.op (t.arg1 == "true") (t.arg2 == "true")
        ({ t with op := "assign", arg1 := if outv then "true" else "false", arg2 := "" }, true)
      else (t, false)
    else (t, false)
  else (t, false)

/-- `Optimizer::constantFold` (optimizer.cpp): fold every instruction in
place; report whether any changed. -/
def constantFold : List TAC → List TAC × Bool
  | [] => ([], false)
  | t :: rest =>
    let p := foldInstr t
    let r := constantFold rest
    (p.1 :: r.1, p.2 || r.2)

/-- One instruction of `Optimizer::strengthReduce` (optimizer.cpp lines
110-135): rewrite `x * 2` (literal `2` in either operand position) into
`x + x`. -/
def reduceInstr (t : TAC) : TAC × Bool :=
  if t.isLabel then (t, false)
  else if t.arg2 = "" then (t, false)
  else if t.op = "*" then
    if isIntLiteral t.arg1 && t.arg1 == "2" then
      ({ t with op := "+", arg1 := t.arg2 }, true)
    else if isIntLiteral t.arg2 && t.arg2 == "2" then
      ({ t with op := "+", arg2 := t.arg1 }, true)
    else (t, false)
  else (t, false)

/-- `Optimizer::strengthReduce` (optimizer.cpp). -/
def strengthReduce : List TAC → List TAC × Bool
  | [] => ([], false)
  | t :: rest =>
    let p := reduceInstr t
    let r := strengthReduce rest
    (p.1 :: r.1, p.2 || r.2)

/-- Find in an association list modelling `std::unordered_map<string,string>`. -/
def mapFind (m : List (String × String)) (k : String) : Option String :=
  match m.find? (fun p => p.1 == k) with
  | some p => some p.2
  | none => none

/-- Insert-or-overwrite, modelling `map[k] = v`. -/
def mapInsert (m : List (String × String)) (k v : String) : List (String × String) :=
  if (m.find? (fun p => p.1 == k)).isSome then
    m.map (fun p => if p.1 == k then (k, v) else p)
  else (k, v) :: m

/-- Erase, modelling `map.erase(k)`. -/
def mapErase (m : List (String × String)) (k : String) : List (String × String) :=
  m.filter (fun p => !(p.1 == k))

/-- Argument substitution performed by `Optimizer::copyPropagate` on one
non-label instruction (optimizer.cpp lines 145-152): replace `arg1` and
`arg2` by their mapping when present.  Returns the new instruction and the
updated change flag. -/
def cpSubst1 (repl : List (String × String)) (changed : Bool) (t : TAC) : TAC × Bool :=
  if t.arg1 ≠ "" then
    match mapFind repl t.arg1 with
    | some v => ({ t with arg1 := v }, true)
    | none => (t, changed)
  else (t, changed)

/-- Second half of the argument substitution: `arg2` (optimizer.cpp lines
149-152), applied to the result of `cpSubst1`. -/
def cpSubst2 (repl : List (String × String)) (s1 : TAC × Bool) : TAC × Bool :=
  if s1.1.arg2 ≠ "" then
    match mapFind repl s1.1.arg2 with
    | some v => ({ s1.1 with arg2 := v }, true)
    | none => s1
  else s1

def cpSubst (repl : List (String × String)) (changed : Bool) (t : TAC) : TAC × Bool :=
  cpSubst2 repl (cpSubst1 repl changed t)

/-- Mapping update performed by `Optimizer::copyPropagate` after the
substitution (optimizer.cpp lines 153-169), on the substituted instruction
`t2`: a safe `assign temp := literal-or-temp` records a mapping (and counts
as a change even though the instruction text is untouched); any other
definition of a temp, and any `call` into a temp, invalidates its entry. -/
def cpRecord (repl : List (String × String)) (changed : Bool) (t2 : TAC) :
    List (String × String) × Bool :=
  if t2.op = "assign" && isTemp t2.res then
    if isIntLiteral t2.arg1 || isBoolLiteral t2.arg1 ||
        isQuotedString t2.arg1 || isTemp t2.arg1 then
      (mapInsert repl t2.res t2.arg1, true)
    else (repl, changed)
  else
    if isTemp t2.res then (mapErase repl t2.res, changed) else (repl, changed)

/-- The trailing `call`-invalidation of `Optimizer::copyPropagate`
(optimizer.cpp line 169), applied after `cpRecord`. -/
def cpUpdate (repl : List (String × String)) (changed : Bool) (t2 : TAC) :
    List (String × String) × Bool :=
  let st3 := cpRecord repl changed t2
  if t2.op = "call" && isTemp t2.res then (mapErase st3.1 t2.res, st3.2) else st3

/-- Loop body of `Optimizer::copyPropagate` (optimizer.cpp lines 141-170):
left-to-right over the instructions, skipping labels, substituting and
updating the temp-to-replacement map. -/
def copyPropagateGo (repl : List (String × String)) (changed : Bool) :
    List TAC → List TAC × Bool
  | [] => ([], changed)
  | t :: rest =>
    if t.isLabel then
      let r := copyPropagateGo repl changed rest
      (t :: r.1, r.2)
    else
      let s := cpSubst repl changed t
      let u := cpUpdate repl s.2 s.1
      let r := copyPropagateGo u.1 u.2 rest
      (s.1 :: r.1, r.2)

/-- `Optimizer::copyPropagate` (optimizer.cpp): single pass with an empty
initial map. -/
def copyPropagate (code : List TAC) : List TAC × Bool :=
  copyPropagateGo [] false code

/-- The side-effect-free ops that `Optimizer::deadCodeElim` may remove
(optimizer.cpp lines 201-203). -/
def pureOps : List String :=
  ["assign", "+", "-", "*", "/", "%", "<", ">", "<=", ">=", "==", "!=", "&&", "||", "!"]

/-- Initial used-temp set of `Optimizer::deadCodeElim` (optimizer.cpp lines
179-185): temps occurring as `arg1` or `arg2` of a non-label instruction. -/
def computeUsed (code : List TAC) : List String :=
  code.foldl
    (fun used t =>
      if t.isLabel then used
      else
        let u1 := if t.arg1 ≠ "" && isTemp t.arg1 then used.insert t.arg1 else used
        if t.arg2 ≠ "" && isTemp t.arg2 then u1.insert t.arg2 else u1)
    []

/-- The `appears`-scan of `Optimizer::deadCodeElim` (optimizer.cpp lines
216-235): does operand `x` occur as `arg1` or `arg2` of some non-label
instruction of `code` at an index other than `i`? -/
def appearsElsewhere (code : List TAC) (i : Nat) (x : String) : Bool :=
  (List.range code.length).any fun j =>
    j ≠ i &&
      (match code[j]? with
       | some tt => !tt.isLabel && (tt.arg1 == x || tt.arg2 == x)
       | none => false)

/-- Used-set update performed when `Optimizer::deadCodeElim` removes the
instruction `t` at index `i` (optimizer.cpp lines 214-235): each temp
argument of `t` that appears nowhere else is dropped from the used-set. -/
def dceUsedUpdate (code : List TAC) (i : Nat) (t : TAC) (used : List String) :
    List String :=
  let u1 :=
    if t.arg1 ≠ "" && isTemp t.arg1 && !appearsElsewhere code i t.arg1 then
      used.erase t.arg1
    else used
  if t.arg2 ≠ "" && isTemp t.arg2 && !appearsElsewhere code i t.arg2 then
    u1.erase t.arg2
  else u1

/-- One removal sweep of `Optimizer::deadCodeElim` (the `for` loop at
optimizer.cpp lines 193-237).  `code` is the full list being swept (used by
the `appears` scans), `i` the index of the head of `rest`.  Returns the kept
instructions, the updated used-set, and whether anything was removed. -/
def dceSweep (code : List TAC) : Nat → List TAC → List String →
    List TAC × List String × Bool
  | _, [], used => ([], used, false)
  | i, t :: rest, used =>
    if t.isLabel then
      let r := dceSweep code (i + 1) rest used
      (t :: r.1, r.2)
    else if isTemp t.res && !used.contains t.res && pureOps.contains t.op then
      let r := dceSweep code (i + 1) rest (dceUsedUpdate code i t used)
      (r.1, r.2.1, true)
    else
      let r := dceSweep code (i + 1) rest used
      (t :: r.1, r.2)

/-- The `while (anyRemoved)` loop of `Optimizer::deadCodeElim` (optimizer.cpp
lines 189-239): sweep, and repeat on the swept code while something was
removed.  The loop is written with a fuel argument so that it reduces in the
kernel; `dceLoopF_fuel_irrel` below shows any fuel above the code length
gives the same result, so the fuel never cuts the C++ loop short. -/
def dceLoopF : Nat → List TAC → List String → List TAC
  | 0, code, _ => code
  | n + 1, code, used =>
    let r := dceSweep code 0 code used
    if r.2.2 then dceLoopF n r.1 r.2.1 else r.1

/-- `Optimizer::deadCodeElim` (optimizer.cpp lines 175-242): compute the
used-temp set once, then sweep to a fixed point.  The C++ `changed` flag is
set exactly when some sweep removed an instruction, i.e. exactly when the
final code is shorter than the input. -/
def deadCodeElim (code : List TAC) : List TAC × Bool :=
  let out := dceLoopF (code.length + 1) code (computeUsed code)
  (out, decide (out.length < code.length))

/-- One iteration of the fixed-point loop in `Optimizer::optimize`
(optimizer.cpp lines 41-48): the four passes in order, with the change
flags OR-ed. -/
def runRound (code : List TAC) : List TAC × Bool :=
  let p1 := constantFold code
  let p2 := strengthReduce p1.1
  let p3 := copyPropagate p2.1
  let p4 := deadCodeElim p3.1
  (p4.1, p1.2 || p2.2 || p3.2 || p4.2)

/-- The bounded fixed-point loop of `Optimizer::optimize` (optimizer.cpp
lines 38-48): run rounds while the previous round changed something, at
most `n` rounds in total (`iterations < 10` in the source). -/
def optLoop : Nat → List TAC → List TAC
  | 0, code => code
  | n + 1, code =>
    let r := runRound code
    if r.2 then optLoop n r.1 else r.1

/-- `Optimizer::optimize` (optimizer.cpp lines 34-51). -/
def optimize (code : List TAC) : List TAC :=
  optLoop 10 code

/-- The ops `Optimizer::deadCodeElim` must never delete (optimizer.cpp's
"operations like call produce side-effects" comment; spec section 4.5). -/
def sideEffectOps : List String :=
  ["call", "print", "input", "return", "goto", "ifFalse"]

end Optimizer

/-- Concrete TAC list: a fold/copy chain thirteen links long ending in a
`print`.  Each optimizer round folds one link and propagates it one step, so
ten rounds are not enough to reach the fixed point. -/
def opt_chain_example : List TAC :=
  [{ op := "assign", arg1 := "1", res := "t1" },
   { op := "+", arg1 := "t1", arg2 := "1", res := "t2" },
   { op := "+", arg1 := "t2", arg2 := "1", res := "t3" },
   { op := "+", arg1 := "t3", arg2 := "1", res := "t4" },
   { op := "+", arg1 := "t4", arg2 := "1", res := "t5" },
   { op := "+", arg1 := "t5", arg2 := "1", res := "t6" },
   { op := "+", arg1 := "t6", arg2 := "1", res := "t7" },
   { op := "+", arg1 := "t7", arg2 := "1", res := "t8" },
   { op := "+", arg1 := "t8", arg2 := "1", res := "t9" },
   { op := "+", arg1 := "t9", arg2 := "1", res := "t10" },
   { op := "+", arg1 := "t10", arg2 := "1", res := "t11" },
   { op := "+", arg1 := "t11", arg2 := "1", res := "t12" },
   { op := "+", arg1 := "t12", arg2 := "1", res := "t13" },
   { op := "print", arg1 := "t13" }]

/-- Concrete TAC list on which one optimizer round reports no change. -/
def opt_stable_example : List TAC :=
  [{ op := "print", arg1 := "x" }]

/-- Expression AST, from `src/ast.h`: `NumberExpr`, `BoolExpr`, `StringExpr`,
`VarExpr`, `UnaryExpr`, `BinaryExpr`, `FuncCallExpr`.  Literal payloads are
the lexeme strings, exactly as in the C++ nodes.  The per-node source line
field is omitted: it feeds only diagnostics and no claim mentions it. -/
inductive Expr where
  | num (value : String)
  | boolLit (value : String)
  | strLit (value : String)
  | var (name : String)
  | unary (op : String) (e : Expr)
  | binary (op : String) (l r : Expr)
  | call (name : String) (args : List Expr)
deriving Repr

/-- Statement AST, from `src/ast.h`.  A C++ `BlockStmt` is represented by its
list of statements; `IfStmt`/`WhileStmt`/`ForStmt` hold their `BlockStmt`
children as such lists (the interpreter and analyzer treat entering those
children as entering a block). -/
inductive Stmt where
  | blockStmt (stmts : List Stmt)
  | varDeclStmt (type name : String) (init : Option Expr)
  | assignStmt (name : String) (value : Expr)
  | printStmt (e : Expr)
  | funcCallStmt (name : String) (args : List Expr)
  | returnStmt (value : Option Expr)
  | inputStmt (name : String)
  | newlineStmt
  | ifStmt (cond : Expr) (thenBlock : List Stmt) (elseBlock : Option (List Stmt))
  | whileStmt (cond : Expr) (block : List Stmt)
  | forStmt (var : String) (startE stopE : Expr) (block : List Stmt)
deriving Repr

/-- Function parameter, from `src/ast.h` (`struct FuncParam`). -/
structure FuncParam where
  type : String
  name : String
deriving Repr

/-- Function declaration, from `src/ast.h` (`struct FuncDecl`); the body is
the statement list of its `BlockStmt` (`nullptr` body is the empty list). -/
structure FuncDecl where
  name : String
  params : List FuncParam
  body : List Stmt
deriving Repr

/-- One entry of `Program::decls` (`src/ast.h`): either a `FuncDecl` or a
statement (top-level `VarDeclStmt` is a statement). -/
inductive Node where
  | func (f : FuncDecl)
  | stmt (s : Stmt)
deriving Repr

/-- Program root, from `src/ast.h`. -/
structure Program where
  decls : List Node
deriving Repr

namespace IRGenerator

/-- Mutable state of the `IRGenerator` class (ir_generator.h): the temp and
label counters and the emitted code. -/
structure IRState where
  tmpCount : Nat
  labelCount : Nat
  code : List TAC
deriving Repr, DecidableEq

/-- `IRGenerator::newTemp` (ir_generator.cpp): `"t" + to_string(++tmpCount)`. -/
def newTemp (st : IRState) : String × IRState :=
  ("t" ++ Nat.repr (st.tmpCount + 1), { st with tmpCount := st.tmpCount + 1 })

/-- `IRGenerator::newLabel` (ir_generator.cpp): `base + to_string(++labelCount)`. -/
def newLabel (base : String) (st : IRState) : String × IRState :=
  (base ++ Nat.repr (st.labelCount + 1), { st with labelCount := st.labelCount + 1 })

/-- `IRGenerator::emit` (ir_generator.h): append to the code list. -/
def emit (t : TAC) (st : IRState) : IRState :=
  { st with code := st.code ++ [t] }

/-- `IRGenerator::emitAssign` (ir_generator.cpp). -/
def emitAssign (dst src : String) (st : IRState) : IRState :=
  emit { op := "assign", arg1 := src, res := dst } st

mutual

/-- `IRGenerator::genExpr` (ir_generator.cpp lines 50-94): returns the
operand naming the expression's value, emitting instructions for non-leaf
nodes. -/
def genExpr : Expr → IRState → String × IRState
  | .num v, st => (v, st)
  | .boolLit v, st => (if v == "true" then "true" else "false", st)
  | .strLit v, st => ("\"" ++ v ++ "\"", st)
  | .var n, st => (n, st)
  | .call n args, st =>
    let r := genArgs args "" true st
    let tm := newTemp r.2
    (tm.1, emit { op := "call", arg1 := n, arg2 := r.1, res := tm.1 } tm.2)
  | .unary op e, st =>
    let r := genExpr e st
    let tm := newTemp r.2
    (tm.1, emit { op := op, arg1 := r.1, res := tm.1 } tm.2)
  | .binary op l rgt, st =>
    let rl := genExpr l st
    let rr := genExpr rgt rl.2
    let tm := newTemp rr.2
    (tm.1, emit { op := op, arg1 := rl.1, arg2 := rr.1, res := tm.1 } tm.2)

/-- Argument-list accumulation inside `IRGenerator::genExpr`'s call case
(ir_generator.cpp lines 66-72): operands joined by `", "`. -/
def genArgs : List Expr → String → Bool → IRState → String × IRState
  | [], acc, _, st => (acc, st)
  | e :: rest, acc, first, st =>
    let r := genExpr e st
    genArgs rest (if first then r.1 else acc ++ ", " ++ r.1) false r.2

end

mutual

/-- `IRGenerator::genStmt` (ir_generator.cpp lines 97-188).  The `dynamic_cast`
chain has no case for `FuncCallStmt` or `InputStmt`; both fall through to the
final "unknown statement -> ignore". -/
def genStmt : Stmt → IRState → IRState
  | .varDeclStmt ty n init, st =>
    match init with
    | some e =>
      let r := genExpr e st
      emitAssign n r.1 r.2
    | none =>
      if ty == "int" then emitAssign n "0" st
      else if ty == "bool" then emitAssign n "false" st
      else emitAssign n "\"\"" st
  | .assignStmt n e, st =>
    let r := genExpr e st
    emitAssign n r.1 r.2
  | .printStmt e, st =>
    let r := genExpr e st
    emit { op := "print", arg1 := r.1 } r.2
  | .newlineStmt, st => emit { op := "newline" } st
  | .returnStmt value, st =>
    match value with
    | some e =>
      let r := genExpr e st
      emit { op := "return", arg1 := r.1 } r.2
    | none => emit { op := "return" } st
  | .forStmt v startE stopE block, st =>
    let rs := genExpr startE st
    let st1 := emitAssign v rs.1 rs.2
    let lb := newLabel "L" st1
    let le := newLabel "L" lb.2
    let st2 := emit { res := lb.1, isLabel := true } le.2
    let re := genExpr stopE st2
    let tc := newTemp re.2
    let st3 := emit { op := "<=", arg1 := v, arg2 := re.1, res := tc.1 } tc.2
    let st4 := emit { op := "ifFalse", arg1 := tc.1, res := le.1 } st3
    let st5 := genBlock block st4
    let ta := newTemp st5
    let st6 := emit { op := "+", arg1 := v, arg2 := "1", res := ta.1 } ta.2
    let st7 := emitAssign v ta.1 st6
    let st8 := emit { op := "goto", res := lb.1 } st7
    emit { res := le.1, isLabel := true } st8
  | .whileStmt cond block, st =>
    let lb := newLabel "L" st
    let le := newLabel "L" lb.2
    let st1 := emit { res := lb.1, isLabel := true } le.2
    let rc := genExpr cond st1
    let st2 := emit { op := "ifFalse", arg1 := rc.1, res := le.1 } rc.2
    let st3 := genBlock block st2
    let st4 := emit { op := "goto", res := lb.1 } st3
    emit { res := le.1, isLabel := true } st4
  | .ifStmt cond thenB elseB, st =>
    let lelse := newLabel "L" st
    let lend := newLabel "L" lelse.2
    let rc := genExpr cond lend.2
    let st1 := emit
      { op := "ifFalse", arg1 := rc.1, res := if elseB.isSome then lelse.1 else lend.1 } rc.2
    let st2 := genBlock thenB st1
    let st3 := emit { op := "goto", res := lend.1 } st2
    let st4 :=
      match elseB with
      | some eb => genBlock eb (emit { res := lelse.1, isLabel := true } st3)
      | none => st3
    emit { res := lend.1, isLabel := true } st4
  | .blockStmt b, st => genBlock b st
  | .funcCallStmt _ _, st => st
  | .inputStmt _, st => st

/-- `IRGenerator::genBlock` (ir_generator.cpp lines 190-193). -/
def genBlock : List Stmt → IRState → IRState
  | [], st => st
  | s :: rest, st => genBlock rest (genStmt s st)

end

/-- `IRGenerator::genFunc` (ir_generator.cpp lines 196-212): `func_<name>`
label, body, an unconditional trailing `return`, then the `endfunc_<name>`
label. -/
def genFunc (f : FuncDecl) (st : IRState) : IRState :=
  let st1 := emit { res := "func_" ++ f.name, isLabel := true } st
  let st2 := genBlock f.body st1
  let st3 := emit { op := "return" } st2
  emit { res := "endfunc_" ++ f.name, isLabel := true } st3

/-- First loop of `IRGenerator::generate` (ir_generator.cpp lines 25-29):
functions only. -/
def genFuncsLoop : List Node → IRState → IRState
  | [], st => st
  | .func f :: rest, st => genFuncsLoop rest (genFunc f st)
  | .stmt _ :: rest, st => genFuncsLoop rest st

/-- Second loop of `IRGenerator::generate` (ir_generator.cpp lines 31-46):
top-level variable declarations and statements. -/
def genTopLoop : List Node → IRState → IRState
  | [], st => st
  | .func _ :: rest, st => genTopLoop rest st
  | .stmt (.varDeclStmt ty n init) :: rest, st =>
    let st1 :=
      match init with
      | some e =>
        let r := genExpr e st
        emitAssign n r.1 r.2
      | none =>
        if ty == "int" then emitAssign n "0" st
        else if ty == "bool" then emitAssign n "false" st
        else emitAssign n "\"\"" st
    genTopLoop rest st1
  | .stmt s :: rest, st => genTopLoop rest (genStmt s st)

/-- `IRGenerator::generate` (ir_generator.cpp lines 20-47): reset state, emit
all functions, then all top-level code. -/
def generate (p : Program) : List TAC :=
  (genTopLoop p.decls (genFuncsLoop p.decls ⟨0, 0, []⟩)).code

/-- The functions of a program, in declaration order. -/
def progFuncs (p : Program) : List FuncDecl :=
  p.decls.filterMap fun n =>
    match n with
    | .func f => some f
    | .stmt _ => none

/-- Verification predicate: `c'` extends `c` by appending instructions that
all satisfy `P` (every IR-generator routine only appends to `code`). -/
def CodeExt (c c' : List TAC) (P : TAC → Prop) : Prop :=
  ∃ Δ, c' = c ++ Δ ∧ ∀ t ∈ Δ, P t

/-- Instructions that statement lowering may emit: any label among them is an
`L<n>` control label from `newLabel "L"`. -/
def bodyInstrOk (t : TAC) : Prop :=
  t.isLabel = true → ∃ n, t.res = "L" ++ Nat.repr n

/-- Instructions that are neither the `endfunc_` nor the `func_` label of the
function named `fn`. -/
def notBoundaryOf (fn : String) (t : TAC) : Prop :=
  ¬(t.isLabel = true ∧ t.res = "endfunc_" ++ fn) ∧
    ¬(t.isLabel = true ∧ t.res = "func_" ++ fn)

/-- Boolean test: is `t` the `endfunc_` label of the function named `fn`? -/
def endP (fn : String) (t : TAC) : Bool :=
  t.isLabel && t.res == "endfunc_" ++ fn

/-- Boolean test: is `t` the `func_` label of the function named `fn`? -/
def funcP (fn : String) (t : TAC) : Bool :=
  t.isLabel && t.res == "func_" ++ fn

end IRGenerator

/-- Concrete one-function program used to witness the boundary theorem. -/
def ir_demo_program : Program :=
  ⟨[Node.func ⟨"f", [], []⟩, Node.stmt (Stmt.printStmt (Expr.num "1"))]⟩

namespace Lexer

/-- Token kinds, from `src/token.h` (`enum class TokenType`). -/
inductive TokenType where
  | KW_INT | KW_BOOL | KW_STRING | KW_FUNC | KW_FOR | KW_TO | KW_WHILE | KW_IF | KW_ELSE
  | KW_RETURN | KW_PRINT | KW_INPUT | KW_NEWLINE | KW_ARRAY | KW_PATTERN
  | INT_LITERAL | BOOL_LITERAL | STRING_LITERAL | ID
  | PLUS | MINUS | MUL | DIV | MOD
  | ASSIGN | EQ | NEQ | LT | GT | LEQ | GEQ | AND | OR | NOT
  | LPAREN | RPAREN | LBRACE | RBRACE | LBRACKET | RBRACKET | COMMA | SEMICOLON
  | LT_SYM | GT_SYM | END_OF_FILE | UNKNOWN
deriving Repr, DecidableEq

/-- Token record, from `src/token.h`: kind, lexeme, 1-based line. -/
structure Token where
  type : TokenType
  lexeme : String
  line : Nat
deriving Repr, DecidableEq

/-- Lexer cursor: `pos` and `line` members of the `Lexer` class
(lexer.h); the source text is passed alongside as a char list. -/
structure LexState where
  pos : Nat
  line : Nat
deriving Repr, DecidableEq

/-- `source[i]`; at or past the end this yields NUL, as a C++ `std::string`
does at index `size()` (the lexer indexes at most one past a guarded
position). -/
def srcGet (src : List Char) (i : Nat) : Char :=
  src.getD i (Char.ofNat 0)

/-- `Lexer::isAtEnd` (lexer.cpp). -/
def isAtEnd (src : List Char) (st : LexState) : Bool :=
  decide (st.pos ≥ src.length)

/-- `Lexer::peek` (lexer.cpp). -/
def peek (src : List Char) (st : LexState) : Char :=
  if isAtEnd src st then Char.ofNat 0 else srcGet src st.pos

/-- `Lexer::advance` (lexer.cpp): return the current char and step, or NUL
without stepping at the end. -/
def advance (src : List Char) (st : LexState) : Char × LexState :=
  if isAtEnd src st then (Char.ofNat 0, st)
  else (srcGet src st.pos, { st with pos := st.pos + 1 })

/-- `Lexer::match` (lexer.cpp): consume the current char only if it equals
`expected`. -/
def lmatch (src : List Char) (st : LexState) (expected : Char) : Bool × LexState :=
  if isAtEnd src st || srcGet src st.pos ≠ expected then (false, st)
  else (true, { st with pos := st.pos + 1 })

/-- `Lexer::skipWhitespace` (lexer.cpp lines 25-32).  The loop consumes one
char per step, so `src.length + 1` fuel is never exhausted. -/
def skipWhitespace (fuel : Nat) (src : List Char) (st : LexState) : LexState :=
  match fuel with
  | 0 => st
  | fuel + 1 =>
    if isAtEnd src st then st
    else
      let c := peek src st
      if c = ' ' ∨ c = Char.ofNat 9 ∨ c = Char.ofNat 13 then
        skipWhitespace fuel src { st with pos := st.pos + 1 }
      else if c = Char.ofNat 10 then
        skipWhitespace fuel src { pos := st.pos + 1, line := st.line + 1 }
      else st

/-- Body of the line-comment loop in `Lexer::skipComment` (lexer.cpp line
36). -/
def lineCommentLoop (fuel : Nat) (src : List Char) (st : LexState) : LexState :=
  match fuel with
  | 0 => st
  | fuel + 1 =>
    if isAtEnd src st then st
    else if peek src st = Char.ofNat 10 then st
    else lineCommentLoop fuel src { st with pos := st.pos + 1 }

/-- Body of the block-comment loop in `Lexer::skipComment` (lexer.cpp lines
39-46). -/
def blockCommentLoop (fuel : Nat) (src : List Char) (st : LexState) : LexState :=
  match fuel with
  | 0 => st
  | fuel + 1 =>
    if isAtEnd src st then st
    else if peek src st = '*' ∧ srcGet src (st.pos + 1) = '/' then
      { st with pos := st.pos + 2 }
    else
      let st1 := if peek src st = Char.ofNat 10 then { st with line := st.line + 1 } else st
      blockCommentLoop fuel src { st1 with pos := st1.pos + 1 }

/-- Else-if branch of `Lexer::skipComment` (lexer.cpp line 38): look back at
`source[pos-1]` and try to consume `*`. -/
def skipCommentElse (src : List Char) (st : LexState) : LexState :=
  if srcGet src (st.pos - 1) = '/' then
    let m3 := lmatch src st '*'
    if m3.1 then blockCommentLoop (src.length + 1) src m3.2 else m3.2
  else st

/-- `Lexer::skipComment` (lexer.cpp lines 34-48), entered after `tokenize`
has already consumed the first `/`.  `if (match('/') && match('/'))`
consumes the SECOND slash and then tests the character after it, so a plain
`//`-comment takes neither branch. -/
def skipComment (src : List Char) (st : LexState) : LexState :=
  let m1 := lmatch src st '/'
  if m1.1 then
    let m2 := lmatch src m1.2 '/'
    if m2.1 then lineCommentLoop (src.length + 1) src m2.2
    else skipCommentElse src m2.2
  else skipCommentElse src m1.2

/-- Keyword table of `Lexer::identifier` (lexer.cpp lines 59-76). -/
def keywordType (text : String) : TokenType :=
  if text = "int" then .KW_INT
  else if text = "bool" then .KW_BOOL
  else if text = "string" then .KW_STRING
  else if text = "func" then .KW_FUNC
  else if text = "for" then .KW_FOR
  else if text = "to" then .KW_TO
  else if text = "while" then .KW_WHILE
  else if text = "if" then .KW_IF
  else if text = "else" then .KW_ELSE
  else if text = "return" then .KW_RETURN
  else if text = "print" then .KW_PRINT
  else if text = "input" then .KW_INPUT
  else if text = "newline" then .KW_NEWLINE
  else if text = "pattern" then .KW_PATTERN
  else if text = "true" ∨ text = "false" then .BOOL_LITERAL
  else .ID

/-- Scanning loop of `Lexer::identifier` (lexer.cpp line 56); `isalnum` on
the ASCII source is `Char.isAlphanum`. -/
def identLoop (fuel : Nat) (src : List Char) (st : LexState) : LexState :=
  match fuel with
  | 0 => st
  | fuel + 1 =>
    if (peek src st).isAlphanum ∨ peek src st = '_' then
      identLoop fuel src { st with pos := st.pos + 1 }
    else st

/-- `Lexer::identifier` (lexer.cpp lines 54-77): the first char is already
consumed, so the lexeme starts at `pos - 1`. -/
def identifier (src : List Char) (st : LexState) : Token × LexState :=
  let start := st.pos - 1
  let st1 := identLoop (src.length + 1) src st
  let text := String.mk ((src.drop start).take (st1.pos - start))
  (⟨keywordType text, text, st1.line⟩, st1)

/-- Scanning loop of `Lexer::number` (lexer.cpp line 81). -/
def numberLoop (fuel : Nat) (src : List Char) (st : LexState) : LexState :=
  match fuel with
  | 0 => st
  | fuel + 1 =>
    if (peek src st).isDigit then numberLoop fuel src { st with pos := st.pos + 1 }
    else st

/-- `Lexer::number` (lexer.cpp lines 79-84). -/
def number (src : List Char) (st : LexState) : Token × LexState :=
  let start := st.pos - 1
  let st1 := numberLoop (src.length + 1) src st
  (⟨.INT_LITERAL, String.mk ((src.drop start).take (st1.pos - start)), st1.line⟩, st1)

/-- Scanning loop of `Lexer::stringLiteral` (lexer.cpp lines 88-91): a
backslash consumes the following char verbatim. -/
def stringLoop (fuel : Nat) (src : List Char) (st : LexState) : LexState :=
  match fuel with
  | 0 => st
  | fuel + 1 =>
    if isAtEnd src st then st
    else if peek src st = '"' then st
    else if peek src st = Char.ofNat 92 then
      stringLoop fuel src (advance src { st with pos := st.pos + 1 }).2
    else stringLoop fuel src { st with pos := st.pos + 1 }

/-- `Lexer::stringLiteral` (lexer.cpp lines 86-95): the opening quote is
already consumed; the lexeme is the body without the quotes. -/
def stringLiteral (src : List Char) (st : LexState) : Token × LexState :=
  let start := st.pos
  let st1 := stringLoop (src.length + 1) src st
  let st2 := (advance src st1).2
  (⟨.STRING_LITERAL, String.mk ((src.drop start).take (st2.pos - start - 1)), st2.line⟩, st2)

/-- Operator/punctuation switch of `Lexer::tokenize` (lexer.cpp lines
130-177), entered with `c` already consumed. -/
def opToken (src : List Char) (st : LexState) (c : Char) : Token × LexState :=
  if c = '+' then (⟨.PLUS, "+", st.line⟩, st)
  else if c = '-' then (⟨.MINUS, "-", st.line⟩, st)
  else if c = '*' then (⟨.MUL, "*", st.line⟩, st)
  else if c = '%' then (⟨.MOD, "%", st.line⟩, st)
  else if c = '/' then (⟨.DIV, "/", st.line⟩, st)
  else if c = '=' then
    let m := lmatch src st '='
    if m.1 then (⟨.EQ, "==", m.2.line⟩, m.2) else (⟨.ASSIGN, "=", m.2.line⟩, m.2)
  else if c = '!' then
    let m := lmatch src st '='
    if m.1 then (⟨.NEQ, "!=", m.2.line⟩, m.2) else (⟨.NOT, "!", m.2.line⟩, m.2)
  else if c = '<' then
    let m := lmatch src st '='
    if m.1 then (⟨.LEQ, "<=", m.2.line⟩, m.2) else (⟨.LT, "<", m.2.line⟩, m.2)
  else if c = '>' then
    let m := lmatch src st '='
    if m.1 then (⟨.GEQ, ">=", m.2.line⟩, m.2) else (⟨.GT, ">", m.2.line⟩, m.2)
  else if c = '&' then
    let m := lmatch src st '&'
    if m.1 then (⟨.AND, "&&", m.2.line⟩, m.2) else (⟨.UNKNOWN, "&", m.2.line⟩, m.2)
  else if c = '|' then
    let m := lmatch src st '|'
    if m.1 then (⟨.OR, "||", m.2.line⟩, m.2) else (⟨.UNKNOWN, "|", m.2.line⟩, m.2)
  else if c = '(' then (⟨.LPAREN, "(", st.line⟩, st)
  else if c = ')' then (⟨.RPAREN, ")", st.line⟩, st)
  else if c = Char.ofNat 123 then (⟨.LBRACE, String.mk [Char.ofNat 123], st.line⟩, st)
  else if c = Char.ofNat 125 then (⟨.RBRACE, String.mk [Char.ofNat 125], st.line⟩, st)
  else if c = ',' then (⟨.COMMA, ",", st.line⟩, st)
  else if c = ';' then (⟨.SEMICOLON, ";", st.line⟩, st)
  else (⟨.UNKNOWN, String.mk [c], st.line⟩, st)

/-- The main `while (!isAtEnd())` loop of `Lexer::tokenize` (lexer.cpp lines
100-178).  Every iteration consumes at least one char, so `src.length + 1`
fuel suffices. -/
def tokenizeLoop (fuel : Nat) (src : List Char) (st : LexState) (acc : List Token) :
    List Token × LexState :=
  match fuel with
  | 0 => (acc, st)
  | fuel + 1 =>
    if isAtEnd src st then (acc, st)
    else
      let st1 := skipWhitespace (src.length + 1) src st
      if isAtEnd src st1 then (acc, st1)
      else
        let a := advance src st1
        if a.1 = '/' ∧ (peek src a.2 = '/' ∨ peek src a.2 = '*') then
          tokenizeLoop fuel src (skipComment src a.2) acc
        else if a.1.isAlpha ∨ a.1 = '_' then
          let r := identifier src a.2
          tokenizeLoop fuel src r.2 (acc ++ [r.1])
        else if a.1.isDigit then
          let r := number src a.2
          tokenizeLoop fuel src r.2 (acc ++ [r.1])
        else if a.1 = '"' then
          let r := stringLiteral src a.2
          tokenizeLoop fuel src r.2 (acc ++ [r.1])
        else
          let r := opToken src a.2 a.1
          tokenizeLoop fuel src r.2 (acc ++ [r.1])

/-- `Lexer::tokenize` (lexer.cpp lines 97-182): run the loop from position 0
and line 1, then append the end-of-file token at the final line. -/
def tokenize (source : String) : List Token :=
  let src := source.data
  let r := tokenizeLoop (src.length + 1) src ⟨0, 1⟩ []
  r.1 ++ [⟨.END_OF_FILE, "EOF", r.2.line⟩]

end Lexer

namespace CodeGenerator

/-- `cppTypeFor` (codegen.cpp lines 11-16). -/
def cppTypeFor (t : String) : String :=
  if t = "int" then "int"
  else if t = "bool" then "bool"
  else if t = "string" then "std::string"
  else "auto"

/-- `CodeGenerator::isQuotedString` (codegen.cpp lines 31-33). -/
def isQuotedString (s : String) : Bool :=
  decide (s.data.length ≥ 2) && s.data.head? == some '"' && s.data.getLast? == some '"'

/-- `CodeGenerator::isBoolLiteral` (codegen.cpp lines 34-36). -/
def isBoolLiteral (s : String) : Bool :=
  s == "true" || s == "false"

/-- `CodeGenerator::isTemp` (codegen.cpp lines 44-46). -/
def isTemp (s : String) : Bool :=
  match s.data with
  | c :: d :: _ => c == 't' && d.isDigit
  | _ => false

/-- `CodeGenerator::makeExprOperand` (codegen.cpp lines 51-56): every branch
returns the operand unchanged. -/
def makeExprOperand (op : String) : String :=
  if isQuotedString op then op
  else if isBoolLiteral op then op
  else op

/-- The `declared` member (`std::unordered_map<std::string,bool>`); reading a
missing key through `operator[]` yields `false`. -/
def declGet (d : List (String × Bool)) (k : String) : Bool :=
  match d.find? (fun p => p.1 == k) with
  | some p => p.2
  | none => false

/-- `declared[dst] = true`. -/
def declSet (d : List (String × Bool)) (k : String) : List (String × Bool) :=
  if (d.find? (fun p => p.1 == k)).isSome then
    d.map (fun p => if p.1 == k then (k, true) else p)
  else (k, true) :: d

/-- Lookup in the `varTypes` map built by `collectVarTypes`. -/
def vtFind (vt : List (String × String)) (k : String) : Option String :=
  match vt.find? (fun p => p.1 == k) with
  | some p => some p.2
  | none => none

/-- Declared-or-default type for a result name (the repeated
`string ty = "int"; if (varTypes.find...)` idiom in codegen.cpp). -/
def tyFor (vt : List (String × String)) (k : String) : String :=
  match vtFind vt k with
  | some v => cppTypeFor v
  | none => "int"

/-- One iteration of the function-body emission loop of
`CodeGenerator::generate` (codegen.cpp lines 293-387): translate one TAC
instruction inside a function range.  Returns the emitted text and the
updated `declared` map. -/
def genFuncInstr (vt : List (String × String)) (declared : List (String × Bool)) (t : TAC) :
    String × List (String × Bool) :=
  if t.isLabel then
    if "func_".data.isPrefixOf t.res.data then ("", declared)
    else ("    " ++ t.res ++ ":
", declared)
  else if t.op = "assign" then
    let src := makeExprOperand t.arg1
    if isTemp t.res then ("    " ++ t.res ++ " = " ++ src ++ ";
", declared)
    else if !declGet declared t.res then
      ("    " ++ tyFor vt t.res ++ " " ++ t.res ++ " = " ++ src ++ ";
", declSet declared t.res)
    else ("    " ++ t.res ++ " = " ++ src ++ ";
", declared)
  else if t.op = "print" then
    ("    cout << " ++ makeExprOperand t.arg1 ++ ";
", declared)
  else if t.op = "newline" then
    ("    cout << endl;
", declared)
  else if t.op = "call" then
    if t.res = "" then ("    " ++ t.arg1 ++ "(" ++ t.arg2 ++ ");
", declared)
    else if isTemp t.res then
      ("    " ++ t.res ++ " = " ++ t.arg1 ++ "(" ++ t.arg2 ++ ");
", declared)
    else if !declGet declared t.res then
      ("    " ++ tyFor vt t.res ++ " " ++ t.res ++ " = " ++ t.arg1 ++ "(" ++ t.arg2 ++ ");
",
        declSet declared t.res)
    else ("    " ++ t.res ++ " = " ++ t.arg1 ++ "(" ++ t.arg2 ++ ");
", declared)
  else if t.op = "return" then
    if t.arg1 = "" then ("    return 0;
", declared)
    else ("    return " ++ makeExprOperand t.arg1 ++ ";
", declared)
  else if t.op = "goto" then
    ("    goto " ++ t.res ++ ";
", declared)
  else if t.op = "ifFalse" then
    ("    if (!(" ++ makeExprOperand t.arg1 ++ ")) goto " ++ t.res ++ ";
", declared)
  else
    let a1 := makeExprOperand t.arg1
    if t.arg2 ≠ "" then
      let a2 := makeExprOperand t.arg2
      if isTemp t.res then
        ("    " ++ t.res ++ " = " ++ a1 ++ " " ++ t.op ++ " " ++ a2 ++ ";
", declared)
      else if !declGet declared t.res then
        ("    " ++ tyFor vt t.res ++ " " ++ t.res ++ " = " ++ a1 ++ " " ++ t.op ++ " " ++ a2
          ++ ";
", declSet declared t.res)
      else ("    " ++ t.res ++ " = " ++ a1 ++ " " ++ t.op ++ " " ++ a2 ++ ";
", declared)
    else
      if isTemp t.res then
        ("    " ++ t.res ++ " = " ++ t.op ++ " " ++ a1 ++ ";
", declared)
      else if !declGet declared t.res then
        ("    " ++ tyFor vt t.res ++ " " ++ t.res ++ " = " ++ t.op ++ " " ++ a1 ++ ";
",
          declSet declared t.res)
      else ("    " ++ t.res ++ " = " ++ t.op ++ " " ++ a1 ++ ";
", declared)

/-- One iteration of the top-level (`main`) emission loop of
`CodeGenerator::generate` (codegen.cpp lines 438-521): translate one TAC
instruction outside every function range.  Unlike the in-function loop, the
`print` case appends `<< endl`. -/
def genMainInstr (vt : List (String × String)) (declared : List (String × Bool)) (t : TAC) :
    String × List (String × Bool) :=
  if t.isLabel then
    ("    " ++ t.res ++ ":
", declared)
  else if t.op = "assign" then
    let src := makeExprOperand t.arg1
    if !declGet declared t.res then
      ("    " ++ tyFor vt t.res ++ " " ++ t.res ++ " = " ++ src ++ ";
", declSet declared t.res)
    else ("    " ++ t.res ++ " = " ++ src ++ ";
", declared)
  else if t.op = "print" then
    ("    cout << " ++ makeExprOperand t.arg1 ++ " << endl;
", declared)
  else if t.op = "newline" then
    ("    cout << endl;
", declared)
  else if t.op = "input" then
    ("    cin >> " ++ t.arg1 ++ ";
", declared)
  else if t.op = "call" then
    if t.res = "" then ("    " ++ t.arg1 ++ "(" ++ t.arg2 ++ ");
", declared)
    else if isTemp t.res then
      ("    " ++ t.res ++ " = " ++ t.arg1 ++ "(" ++ t.arg2 ++ ");
", declared)
    else if !declGet declared t.res then
      ("    " ++ tyFor vt t.res ++ " " ++ t.res ++ " = " ++ t.arg1 ++ "(" ++ t.arg2 ++ ");
",
        declSet declared t.res)
    else ("    " ++ t.res ++ " = " ++ t.arg1 ++ "(" ++ t.arg2 ++ ");
", declared)
  else if t.op = "goto" then
    ("    goto " ++ t.res ++ ";
", declared)
  else if t.op = "ifFalse" then
    ("    if (!(" ++ makeExprOperand t.arg1 ++ ")) goto " ++ t.res ++ ";
", declared)
  else if t.op = "return" then
    if t.arg1 = "" then ("    return 0;
", declared)
    else ("    return " ++ makeExprOperand t.arg1 ++ ";
", declared)
  else
    let a1 := makeExprOperand t.arg1
    if t.arg2 ≠ "" then
      let a2 := makeExprOperand t.arg2
      if !declGet declared t.res then
        ("    " ++ tyFor vt t.res ++ " " ++ t.res ++ " = " ++ a1 ++ " " ++ t.op ++ " " ++ a2
          ++ ";
", declSet declared t.res)
      else ("    " ++ t.res ++ " = " ++ a1 ++ " " ++ t.op ++ " " ++ a2 ++ ";
", declared)
    else
      if !declGet declared t.res then
        ("    " ++ tyFor vt t.res ++ " " ++ t.res ++ " = " ++ t.op ++ " " ++ a1 ++ ";
",
          declSet declared t.res)
      else ("    " ++ t.res ++ " = " ++ t.op ++ " " ++ a1 ++ ";
", declared)

end CodeGenerator

namespace Sema

/-- Type kinds, from `src/symbol_table.h` (`enum class TypeKind`); the C++
`struct Type` wraps exactly one kind, so the kind is the type. -/
inductive TypeKind where
  | TYPE_INT | TYPE_BOOL | TYPE_STRING | TYPE_VOID | TYPE_UNKNOWN
deriving Repr, DecidableEq

/-- Symbol record, from `src/symbol_table.h` (`struct Symbol`), with the C++
member defaults. -/
structure Symbol where
  name : String
  type : TypeKind := .TYPE_UNKNOWN
  isFunction : Bool := false
  isBuiltin : Bool := false
  paramTypes : List TypeKind := []
  returnType : TypeKind := .TYPE_UNKNOWN
deriving Repr, DecidableEq

/-- One scope: an association list modelling
`std::unordered_map<std::string, Symbol>`. -/
abbrev Scope := List (String × Symbol)

def scopeFind (sc : Scope) (n : String) : Option Symbol :=
  match sc.find? (fun p => p.1 == n) with
  | some p => some p.2
  | none => none

def scopeInsert (sc : Scope) (s : Symbol) : Scope :=
  (s.name, s) :: sc

/-- The scope stack (`SymbolTable::scopes`), stored INNERMOST-FIRST; the C++
vector stores the global scope at index 0 and the innermost at the back and
iterates from the back, which is the same search order. -/
abbrev SymTab := List Scope

/-- `SymbolTable::insert` (symbol_table.h): into the innermost scope, `false`
if the name is already there.  An empty stack never occurs (the constructor
pushes the global scope); it is mapped to a failed insert. -/
def tabInsert (tab : SymTab) (s : Symbol) : Bool × SymTab :=
  match tab with
  | [] => (false, tab)
  | cur :: rest =>
    if (scopeFind cur s.name).isSome then (false, cur :: rest)
    else (true, scopeInsert cur s :: rest)

/-- `SymbolTable::existsInCurrent` (symbol_table.h). -/
def existsInCurrent (tab : SymTab) (n : String) : Bool :=
  match tab with
  | [] => false
  | cur :: _ => (scopeFind cur n).isSome

/-- `SymbolTable::lookup` (symbol_table.h): innermost-first. -/
def lookup : SymTab → String → Option Symbol
  | [], _ => none
  | cur :: rest, n =>
    match scopeFind cur n with
    | some s => some s
    | none => lookup rest n

/-- Write-through of a `Symbol*` obtained from `lookup`: update the symbol at
the innermost occurrence of the name (used for return-type back-patching). -/
def lookupUpdate : SymTab → String → (Symbol → Symbol) → SymTab
  | [], _, _ => []
  | cur :: rest, n, g =>
    if (scopeFind cur n).isSome then
      cur.map (fun p => if p.1 == n then (p.1, g p.2) else p) :: rest
    else cur :: lookupUpdate rest n g

/-- `SymbolTable::insertGlobal` (symbol_table.h): into the bottom (global)
scope, which is the LAST entry of the innermost-first representation. -/
def insertGlobal (tab : SymTab) (s : Symbol) : Bool × SymTab :=
  match tab with
  | [] => (false, tab)
  | [g] =>
    if (scopeFind g s.name).isSome then (false, [g])
    else (true, [scopeInsert g s])
  | cur :: rest =>
    let r := insertGlobal rest s
    (r.1, cur :: r.2)

/-- Analyzer state: the `SemanticAnalyzer` members (sema.h). -/
structure SemaState where
  symtab : SymTab
  inFunction : Bool := false
  currentFunctionReturnType : TypeKind := .TYPE_VOID
deriving Repr, DecidableEq

/-- `SemanticAnalyzer::stringToType` (sema.cpp lines 6-12). -/
def stringToType (s : String) : TypeKind :=
  if s = "int" then .TYPE_INT
  else if s = "bool" then .TYPE_BOOL
  else if s = "string" then .TYPE_STRING
  else .TYPE_UNKNOWN

/-- The names bound in a scope, in search order. -/
def scopeNames (sc : Scope) : List String :=
  sc.map Prod.fst

mutual

/-- Recursion budget for the statement walkers below: a syntactic size that
strictly dominates the recursion depth of the C++ statement traversals, so
that running them with this much fuel never exhausts it. -/
def stmtSize : Stmt → Nat
  | .blockStmt b => stmtsSize b + 2
  | .varDeclStmt _ _ _ => 2
  | .assignStmt _ _ => 2
  | .printStmt _ => 2
  | .funcCallStmt _ _ => 2
  | .returnStmt _ => 2
  | .inputStmt _ => 2
  | .newlineStmt => 2
  | .ifStmt _ tb eb =>
    stmtsSize tb + (match eb with | some l => stmtsSize l | none => 0) + 2
  | .whileStmt _ b => stmtsSize b + 2
  | .forStmt _ _ _ b => stmtsSize b + 2

def stmtsSize : List Stmt → Nat
  | [] => 1
  | s :: rest => stmtSize s + stmtsSize rest

end

mutual

/-- `analyzeExpr` (sema.cpp lines 85-162); it reads the symbol table but
never modifies the analyzer state, so only the resulting type is returned.
`SemanticAnalyzer::error` calls `exit(1)`, modelled as `Except.error`. -/
def analyzeExpr (st : SemaState) : Expr → Except String TypeKind
  | .num _ => .ok .TYPE_INT
  | .boolLit _ => .ok .TYPE_BOOL
  | .strLit _ => .ok .TYPE_STRING
  | .var n =>
    match lookup st.symtab n with
    | none => .error "Use of undeclared variable"
    | some sym =>
      if sym.isFunction then .error "is a function, not a variable"
      else .ok sym.type
  | .call name args =>
    match lookup st.symtab name with
    | none => .error "Call to undeclared function"
    | some sym =>
      if !sym.isFunction then .error "Call to undeclared function"
      else if sym.paramTypes.length ≠ args.length then .error "wrong number of arguments"
      else
        match checkArgs st args sym.paramTypes with
        | .error e => .error e
        | .ok _ =>
          .ok (if sym.returnType = .TYPE_UNKNOWN then .TYPE_INT else sym.returnType)
  | .unary op e =>
    match analyzeExpr st e with
    | .error e => .error e
    | .ok sub =>
      if op = "!" then
        if sub ≠ .TYPE_BOOL then .error "Operator ! requires bool operand"
        else .ok .TYPE_BOOL
      else if op = "-" then
        if sub ≠ .TYPE_INT then .error "Unary - requires int operand"
        else .ok .TYPE_INT
      else .ok .TYPE_UNKNOWN
  | .binary op l r =>
    match analyzeExpr st l with
    | .error e => .error e
    | .ok tl =>
      match analyzeExpr st r with
      | .error e => .error e
      | .ok tr =>
        if op = "+" ∨ op = "-" ∨ op = "*" ∨ op = "/" ∨ op = "%" then
          if tl ≠ .TYPE_INT ∨ tr ≠ .TYPE_INT then
            .error "Arithmetic operator requires integer operands"
          else .ok .TYPE_INT
        else if op = "==" ∨ op = "!=" then
          if tl ≠ tr then .error "Equality operator requires operands of same type"
          else .ok .TYPE_BOOL
        else if op = "<" ∨ op = ">" ∨ op = "<=" ∨ op = ">=" then
          if tl ≠ .TYPE_INT ∨ tr ≠ .TYPE_INT then
            .error "Relational operator requires integer operands"
          else .ok .TYPE_BOOL
        else if op = "&&" ∨ op = "||" then
          if tl ≠ .TYPE_BOOL ∨ tr ≠ .TYPE_BOOL then
            .error "Logical operator requires boolean operands"
          else .ok .TYPE_BOOL
        else .ok .TYPE_UNKNOWN

/-- Argument loop of the call case (sema.cpp lines 111-117): each argument
type must equal the parameter type; the loop stops at the shorter list. -/
def checkArgs (st : SemaState) : List Expr → List TypeKind → Except String Unit
  | [], _ => .ok ()
  | _ :: _, [] => .ok ()
  | e :: rest, pt :: pts =>
    match analyzeExpr st e with
    | .error err => .error err
    | .ok at1 =>
      if at1 ≠ pt then .error "Type mismatch in argument"
      else checkArgs st rest pts

end

mutual

/-- `analyzeStmt` (sema.cpp lines 164-270).  The `dynamic_cast` chain has no
case for `FuncCallStmt`, which therefore falls through the final "Unknown
statement" and is ignored.  The first argument is a recursion budget; the
`analyzeStmt` wrapper below supplies `stmtSize`, which strictly dominates the
recursion depth of the C++ traversal, so the `0` case is never reached from
the wrapper. -/
def analyzeStmtF : Nat → SemaState → Stmt → Except String SemaState
  | 0, _, _ => .error "recursion budget exhausted"
  | fuel+1, st, s =>
    match s with
    | .varDeclStmt ty n init =>
      let dt := stringToType ty
      if dt = .TYPE_UNKNOWN then .error "Unknown type in declaration"
      else if existsInCurrent st.symtab n then .error "Redeclaration of variable"
      else
        let st1 := { st with symtab := (tabInsert st.symtab { name := n, type := dt }).2 }
        match init with
        | none => .ok st1
        | some e =>
          match analyzeExpr st1 e with
          | .error err => .error err
          | .ok rt =>
            if rt ≠ dt then .error "Type mismatch in initialization"
            else .ok st1
    | .assignStmt n e =>
      match lookup st.symtab n with
      | none => .error "Assignment to undeclared variable"
      | some sym =>
        if sym.isFunction then .error "Cannot assign to function"
        else
          match analyzeExpr st e with
          | .error err => .error err
          | .ok rt =>
            if rt ≠ sym.type then .error "Type mismatch in assignment"
            else .ok st
    | .printStmt e =>
      match analyzeExpr st e with
      | .error err => .error err
      | .ok _ => .ok st
    | .inputStmt n =>
      match lookup st.symtab n with
      | none => .error "Input to undeclared variable"
      | some _ => .ok st
    | .newlineStmt => .ok st
    | .returnStmt value =>
      if !st.inFunction then .error "Return statement outside of function"
      else
        match value with
        | none => .ok st
        | some e =>
          match analyzeExpr st e with
          | .error err => .error err
          | .ok rt =>
            if st.currentFunctionReturnType ≠ .TYPE_UNKNOWN ∧
                rt ≠ st.currentFunctionReturnType then
              .error "Return type mismatch"
            else .ok st
    | .forStmt v startE stopE block =>
      let stv :=
        if existsInCurrent st.symtab v then st
        else { st with symtab := (tabInsert st.symtab { name := v, type := .TYPE_INT }).2 }
      match
        (if existsInCurrent st.symtab v then
          match lookup st.symtab v with
          | some vs => if vs.type ≠ .TYPE_INT then some "Loop variable must be int" else none
          | none => none
        else none) with
      | some err => .error err
      | none =>
        match analyzeExpr stv startE with
        | .error err => .error err
        | .ok t1 =>
          match analyzeExpr stv stopE with
          | .error err => .error err
          | .ok t2 =>
            if t1 ≠ .TYPE_INT ∨ t2 ≠ .TYPE_INT then .error "For loop bounds must be integers"
            else
              match analyzeBlockF fuel { stv with symtab := [] :: [] :: stv.symtab } block with
              | .error err => .error err
              | .ok st2 => .ok { st2 with symtab := st2.symtab.tail.tail }
    | .whileStmt cond block =>
      match analyzeExpr st cond with
      | .error err => .error err
      | .ok ct =>
        if ct ≠ .TYPE_BOOL then .error "While condition must be boolean"
        else
          match analyzeBlockF fuel { st with symtab := [] :: [] :: st.symtab } block with
          | .error err => .error err
          | .ok st2 => .ok { st2 with symtab := st2.symtab.tail.tail }
    | .ifStmt cond thenB elseB =>
      match analyzeExpr st cond with
      | .error err => .error err
      | .ok ct =>
        if ct ≠ .TYPE_BOOL then .error "If condition must be boolean"
        else
          match analyzeBlockF fuel { st with symtab := [] :: [] :: st.symtab } thenB with
          | .error err => .error err
          | .ok st2 =>
            let st3 := { st2 with symtab := st2.symtab.tail.tail }
            match elseB with
            | none => .ok st3
            | some eb =>
              match analyzeBlockF fuel { st3 with symtab := [] :: [] :: st3.symtab } eb with
              | .error err => .error err
              | .ok st4 => .ok { st4 with symtab := st4.symtab.tail.tail }
    | .blockStmt b =>
      match analyzeBlockF fuel { st with symtab := [] :: st.symtab } b with
      | .error err => .error err
      | .ok st2 => .ok { st2 with symtab := st2.symtab.tail }
    | .funcCallStmt _ _ => .ok st

/-- Statement-list traversal inside `analyzeStmt`'s block case.  The
if/for/while cases above push two scopes and pop two: the outer one is the
scope the C++ if/for/while case pushes, the inner one is the scope the
`BlockStmt` case pushes when `analyzeStmt` is re-entered on the child
block. -/
def analyzeBlockF : Nat → SemaState → List Stmt → Except String SemaState
  | 0, _, _ => .error "recursion budget exhausted"
  | fuel+1, st, l =>
    match l with
    | [] => .ok st
    | s :: rest =>
      match analyzeStmtF fuel st s with
      | .error err => .error err
      | .ok st1 => analyzeBlockF fuel st1 rest

end

/-- `analyzeStmt` run with a sufficient recursion budget. -/
def analyzeStmt (st : SemaState) (s : Stmt) : Except String SemaState :=
  analyzeStmtF (stmtSize s) st s

/-- The statement-list loop of `analyzeStmt`'s block case, run with a
sufficient recursion budget. -/
def analyzeBlock (st : SemaState) (l : List Stmt) : Except String SemaState :=
  analyzeBlockF (stmtsSize l) st l

mutual

/-- The `walkStmt` lambda of `analyzeFuncDecl` (sema.cpp lines 289-348):
tracks return types; for `if`/`for`/`while` it only analyzes the
sub-expressions (NO boolean/int check) and walks the nested blocks; all
other statements are delegated to `analyzeStmt`. -/
def walkStmtF : Nat → String → SemaState → Stmt → Except String SemaState
  | 0, _, _, _ => .error "recursion budget exhausted"
  | fuel+1, fname, st, s =>
    match s with
    | .returnStmt value =>
      match value with
      | some e =>
        match analyzeExpr st e with
        | .error err => .error err
        | .ok rt =>
          if st.currentFunctionReturnType = .TYPE_UNKNOWN then
            .ok { st with currentFunctionReturnType := rt }
          else if st.currentFunctionReturnType ≠ rt then
            .error "Inconsistent return types in function"
          else .ok st
      | none =>
        if st.currentFunctionReturnType = .TYPE_UNKNOWN then
          .ok { st with currentFunctionReturnType := .TYPE_VOID }
        else if st.currentFunctionReturnType ≠ .TYPE_VOID then
          .error "Inconsistent return types (void vs non-void) in function"
        else .ok st
    | .blockStmt b =>
      match walkBlockF fuel fname { st with symtab := [] :: st.symtab } b with
      | .error err => .error err
      | .ok st2 => .ok { st2 with symtab := st2.symtab.tail }
    | .ifStmt cond thenB elseB =>
      match analyzeExpr st cond with
      | .error err => .error err
      | .ok _ =>
        match walkBlockF fuel fname { st with symtab := [] :: [] :: st.symtab } thenB with
        | .error err => .error err
        | .ok st2 =>
          let st3 := { st2 with symtab := st2.symtab.tail.tail }
          match elseB with
          | none => .ok st3
          | some eb =>
            match walkBlockF fuel fname { st3 with symtab := [] :: [] :: st3.symtab } eb with
            | .error err => .error err
            | .ok st4 => .ok { st4 with symtab := st4.symtab.tail.tail }
    | .forStmt _ startE stopE block =>
      match analyzeExpr st startE with
      | .error err => .error err
      | .ok _ =>
        match analyzeExpr st stopE with
        | .error err => .error err
        | .ok _ =>
          match walkBlockF fuel fname { st with symtab := [] :: [] :: st.symtab } block with
          | .error err => .error err
          | .ok st2 => .ok { st2 with symtab := st2.symtab.tail.tail }
    | .whileStmt cond block =>
      match analyzeExpr st cond with
      | .error err => .error err
      | .ok _ =>
        match walkBlockF fuel fname { st with symtab := [] :: [] :: st.symtab } block with
        | .error err => .error err
        | .ok st2 => .ok { st2 with symtab := st2.symtab.tail.tail }
    | .varDeclStmt ty n init => analyzeStmtF fuel st (.varDeclStmt ty n init)
    | .assignStmt n e => analyzeStmtF fuel st (.assignStmt n e)
    | .printStmt e => analyzeStmtF fuel st (.printStmt e)
    | .inputStmt n => analyzeStmtF fuel st (.inputStmt n)
    | .newlineStmt => analyzeStmtF fuel st .newlineStmt
    | .funcCallStmt n args => analyzeStmtF fuel st (.funcCallStmt n args)

/-- Statement-list traversal inside `walkStmt`'s block case.  As with
`analyzeBlock`, the if/for/while cases above push two scopes and pop two:
the outer one is pushed by the if/for/while case itself, the inner one by
`walkStmt`'s `BlockStmt` case when it is re-entered on the child block. -/
def walkBlockF : Nat → String → SemaState → List Stmt → Except String SemaState
  | 0, _, _, _ => .error "recursion budget exhausted"
  | fuel+1, fname, st, l =>
    match l with
    | [] => .ok st
    | s :: rest =>
      match walkStmtF fuel fname st s with
      | .error err => .error err
      | .ok st1 => walkBlockF fuel fname st1 rest

end

/-- The `walkStmt` lambda run with a sufficient recursion budget. -/
def walkStmt (fname : String) (st : SemaState) (s : Stmt) : Except String SemaState :=
  walkStmtF (stmtSize s) fname st s

/-- The statement-list loop of the walk, run with a sufficient recursion
budget. -/
def walkBlock (fname : String) (st : SemaState) (l : List Stmt) : Except String SemaState :=
  walkBlockF (stmtsSize l) fname st l

/-- Parameter insertion loop of `analyzeFuncDecl` (sema.cpp lines 281-285). -/
def insertParams (st : SemaState) : List FuncParam → Except String SemaState
  | [] => .ok st
  | p :: rest =>
    let pt := stringToType p.type
    let r := tabInsert st.symtab { name := p.name, type := pt }
    if !r.1 then .error "Parameter name duplicated"
    else insertParams { st with symtab := r.2 } rest

/-- `analyzeFuncDecl` (sema.cpp lines 273-368): set the in-function flags,
push the function scope, insert the parameters, walk the body collecting the
return type, write the resolved type back through an innermost-first lookup
of the function's name, pop, and reset the flags. -/
def analyzeFuncDecl (st : SemaState) (f : FuncDecl) : Except String SemaState :=
  let st1 : SemaState :=
    { symtab := [] :: st.symtab, inFunction := true,
      currentFunctionReturnType := .TYPE_UNKNOWN }
  match insertParams st1 f.params with
  | .error err => .error err
  | .ok st2 =>
    match walkBlock f.name st2 f.body with
    | .error err => .error err
    | .ok st3 =>
      let st4 :=
        match lookup st3.symtab f.name with
        | some fsym =>
          if fsym.isFunction then
            { st3 with symtab := lookupUpdate st3.symtab f.name (fun sym =>
                { sym with returnType :=
                    if st3.currentFunctionReturnType ≠ .TYPE_UNKNOWN then
                      st3.currentFunctionReturnType
                    else .TYPE_VOID }) }
          else st3
        | none => st3
      .ok { symtab := st4.symtab.tail, inFunction := false,
            currentFunctionReturnType := .TYPE_VOID }

/-- Pass 1 of `SemanticAnalyzer::analyze` (sema.cpp lines 27-57): register
function signatures (unknown return type) and global variables. -/
def analyzePass1 (st : SemaState) : List Node → Except String SemaState
  | [] => .ok st
  | .func f :: rest =>
    let sym : Symbol :=
      { name := f.name, isFunction := true,
        paramTypes := f.params.map (fun p => stringToType p.type),
        returnType := .TYPE_UNKNOWN }
    let r := insertGlobal st.symtab sym
    if !r.1 then .error "Redefinition of function"
    else analyzePass1 { st with symtab := r.2 } rest
  | .stmt (.varDeclStmt ty n _) :: rest =>
    let dt := stringToType ty
    if dt = .TYPE_UNKNOWN then .error "Unknown type for variable"
    else
      let r := tabInsert st.symtab { name := n, type := dt }
      if !r.1 then .error "Redefinition of variable"
      else analyzePass1 { st with symtab := r.2 } rest
  | .stmt _ :: rest => analyzePass1 st rest

/-- Pass 2 of `SemanticAnalyzer::analyze` (sema.cpp lines 59-80): function
bodies, global initializers, top-level statements. -/
def analyzePass2 (st : SemaState) : List Node → Except String SemaState
  | [] => .ok st
  | .func f :: rest =>
    match analyzeFuncDecl st f with
    | .error err => .error err
    | .ok st1 => analyzePass2 st1 rest
  | .stmt (.varDeclStmt ty _ init) :: rest =>
    (match init with
      | none => analyzePass2 st rest
      | some e =>
        match analyzeExpr st e with
        | .error err => .error err
        | .ok rt =>
          let dt := stringToType ty
          if dt = .TYPE_UNKNOWN then .error "Unknown type for variable"
          else if rt ≠ dt then .error "Type mismatch in initialization"
          else analyzePass2 st rest)
  | .stmt s :: rest =>
    match analyzeStmt st s with
    | .error err => .error err
    | .ok st1 => analyzePass2 st1 rest

/-- `SemanticAnalyzer::analyze` (sema.cpp lines 24-81), starting from the
fresh symbol table (one global scope) and default flags. -/
def analyze (p : Program) : Except String SemaState :=
  match analyzePass1 ⟨[[]], false, .TYPE_VOID⟩ p.decls with
  | .error err => .error err
  | .ok st1 => analyzePass2 st1 p.decls

/-- Does semantic analysis accept the program (no error exit)? -/
def analyzeAccepts (p : Program) : Bool :=
  match analyze p with
  | .ok _ => true
  | .error _ => false

mutual

/-- Syntactic predicate: does the statement contain a `return` with a value,
anywhere inside nested blocks/ifs/loops?  (Formalizes the claim's
"value-returning return statements".) -/
def hasValueReturn : Stmt → Bool
  | .returnStmt (some _) => true
  | .returnStmt none => false
  | .blockStmt b => hasValueReturnList b
  | .ifStmt _ tb eb =>
    hasValueReturnList tb ||
      (match eb with
       | some l => hasValueReturnList l
       | none => false)
  | .whileStmt _ b => hasValueReturnList b
  | .forStmt _ _ _ b => hasValueReturnList b
  | _ => false

def hasValueReturnList : List Stmt → Bool
  | [] => false
  | s :: rest => hasValueReturn s || hasValueReturnList rest

end

mutual

/-- Syntactic predicate: does the statement contain a valueless `return;`? -/
def hasValuelessReturn : Stmt → Bool
  | .returnStmt none => true
  | .returnStmt (some _) => false
  | .blockStmt b => hasValuelessReturnList b
  | .ifStmt _ tb eb =>
    hasValuelessReturnList tb ||
      (match eb with
       | some l => hasValuelessReturnList l
       | none => false)
  | .whileStmt _ b => hasValuelessReturnList b
  | .forStmt _ _ _ b => hasValuelessReturnList b
  | _ => false

def hasValuelessReturnList : List Stmt → Bool
  | [] => false
  | s :: rest => hasValuelessReturn s || hasValuelessReturnList rest

end

mutual

/-- Syntactic predicate: does the statement contain any `return` at all,
anywhere inside nested blocks/ifs/loops?  Fuel-based like the walkers (the
wrappers below supply `stmtSize`/`stmtsSize`, which always suffice); an
exhausted budget conservatively answers `true`. -/
def hasAnyReturnF : Nat → Stmt → Bool
  | 0, _ => true
  | fuel+1, s =>
    match s with
    | .returnStmt _ => true
    | .blockStmt b => hasAnyReturnListF fuel b
    | .ifStmt _ tb eb =>
      hasAnyReturnListF fuel tb ||
        (match eb with
         | some l => hasAnyReturnListF fuel l
         | none => false)
    | .whileStmt _ b => hasAnyReturnListF fuel b
    | .forStmt _ _ _ b => hasAnyReturnListF fuel b
    | _ => false

def hasAnyReturnListF : Nat → List Stmt → Bool
  | 0, _ => true
  | fuel+1, l =>
    match l with
    | [] => false
    | s :: rest => hasAnyReturnF fuel s || hasAnyReturnListF fuel rest

end

/-- Does the statement contain any `return` at all? -/
def hasAnyReturn (s : Stmt) : Bool :=
  hasAnyReturnF (stmtSize s) s

/-- Does the statement list contain any `return` at all? -/
def hasAnyReturnList (l : List Stmt) : Bool :=
  hasAnyReturnListF (stmtsSize l) l

/-- Names bound directly into the function-body scope while the walk runs:
the variable declarations at the top statement level of the body (nested
blocks get their own scopes; the walk's `for` case inserts nothing). -/
def topDeclNames (l : List Stmt) : List String :=
  l.filterMap fun s =>
    match s with
    | .varDeclStmt _ n _ => some n
    | _ => none

/-- Program whose function body hides an `if` with an `int` condition from
the type checker: `func f() { if (1) { } }`. -/
def sema_condition_program : Program :=
  ⟨[Node.func ⟨"f", [], [Stmt.ifStmt (Expr.num "1") [] none]⟩]⟩

/-- Program mixing a value-returning `return g()` (of `void` type) with a
valueless `return;` in the same function. -/
def sema_mixed_return_program : Program :=
  ⟨[Node.func ⟨"g", [], [Stmt.returnStmt none]⟩,
    Node.func ⟨"f", [], [Stmt.returnStmt (some (Expr.call "g" [])),
                         Stmt.returnStmt none]⟩]⟩

/-- The function `f` of `sema_mixed_return_program`. -/
def sema_mixed_f : FuncDecl :=
  ⟨"f", [], [Stmt.returnStmt (some (Expr.call "g" [])), Stmt.returnStmt none]⟩

/-- Analyzer state with one empty global scope, as `analyze` starts. -/
def sema_start_state : SemaState :=
  ⟨[[]], false, .TYPE_VOID⟩

/-- The analyzer state at the moment the walk of `sema_condition_program`
reaches the `if` condition: empty function scope over the global scope
holding `f`, inside a function with still-unknown return type. -/
def sema_condition_context : SemaState :=
  ⟨[[], [("f", ⟨"f", .TYPE_UNKNOWN, true, false, [], .TYPE_UNKNOWN⟩)]], true, .TYPE_UNKNOWN⟩

end Sema

namespace Interp

/-- Runtime value (`struct Value`, interpreter.h): a C++
`std::variant<int,bool,std::string>` whose default-constructed state is the
first alternative, `int 0`.  The C++ `int` is a machine integer; arithmetic
overflow is not modelled (no claim below depends on it). -/
inductive Value where
  | vint (n : Int)
  | vbool (b : Bool)
  | vstr (s : String)
deriving Repr, DecidableEq

/-- `Value::toString` (interpreter.cpp lines 8-12). -/
def Value.toStr : Value → String
  | .vint n => if n < 0 then "-" ++ Nat.repr n.natAbs else Nat.repr n.natAbs
  | .vbool b => if b then "true" else "false"
  | .vstr s => s

/-- `Value::isString` (interpreter.cpp line 15). -/
def Value.isString : Value → Bool
  | .vstr _ => true
  | _ => false

/-- One scope: an `unordered_map<string,Value>` as an association list with
at most one binding per name. -/
abbrev VScope := List (String × Value)

def scopeGet (sc : VScope) (n : String) : Option Value :=
  match sc.find? (fun p => p.1 == n) with
  | some p => some p.2
  | none => none

/-- `m[name] = val` on an `unordered_map`: update the binding if present,
otherwise add one. -/
def scopeSet (sc : VScope) (n : String) (v : Value) : VScope :=
  if (sc.find? (fun p => p.1 == n)).isSome then
    sc.map (fun p => if p.1 == n then (p.1, v) else p)
  else (n, v) :: sc

/-- Interpreter state (interpreter.h members): `env` is the scope stack
stored innermost-first (the C++ vector's back is the head here), `funcs` the
function registry, `out` the accumulated standard output, `inp` the
remaining standard-input lines. -/
structure IState where
  env : List VScope
  funcs : List (String × FuncDecl)
  out : String
  inp : List String
deriving Repr

/-- `Interpreter::popScope` (interpreter.cpp lines 27-29): pop the innermost
scope if the stack is non-empty. -/
def popScope (env : List VScope) : List VScope :=
  match env with
  | [] => []
  | _ :: t => t

/-- `Interpreter::getVar`'s scan (interpreter.cpp lines 53-60), innermost
first; `none` stands for the "use of undeclared variable" runtime error. -/
def envGet : List VScope → String → Option Value
  | [], _ => none
  | sc :: rest, n =>
    match scopeGet sc n with
    | some v => some v
    | none => envGet rest n

/-- Write into the head (current = innermost) scope, `env.back()[n] = v`. -/
def envSetCur (env : List VScope) (n : String) (v : Value) : List VScope :=
  match env with
  | [] => []
  | sc :: rest => scopeSet sc n v :: rest

/-- The scan of `Interpreter::setVar` (interpreter.cpp lines 31-40): update
the binding in the nearest scope that has one; `none` if no scope does. -/
def envSetFound : List VScope → String → Value → Option (List VScope)
  | [], _, _ => none
  | sc :: rest, n, v =>
    if (scopeGet sc n).isSome then some (scopeSet sc n v :: rest)
    else
      match envSetFound rest n v with
      | some rest2 => some (sc :: rest2)
      | none => none

/-- `Interpreter::setVar`: set in the nearest scope where the name exists,
else in the current scope. -/
def envSet (env : List VScope) (n : String) (v : Value) : List VScope :=
  match envSetFound env n v with
  | some env2 => env2
  | none => envSetCur env n v

/-- `Interpreter::existsVarInCurrent` (interpreter.cpp lines 42-45). -/
def existsVarCur (env : List VScope) (n : String) : Bool :=
  match env with
  | [] => false
  | sc :: _ => (scopeGet sc n).isSome

/-- Default value per declared type string (interpreter.cpp lines 104-107,
266-270): `int` 0, `bool` false, anything else the empty string. -/
def defaultValue (ty : String) : Value :=
  if ty = "int" then .vint 0
  else if ty = "bool" then .vbool false
  else .vstr ""

def digitsToNatGo : List Char → Nat → Option Nat
  | [], acc => some acc
  | c :: cs, acc =>
    if c.isDigit then digitsToNatGo cs (acc * 10 + (c.toNat - 48)) else none

/-- `std::stoi` as used on lexer-produced number strings (all digits, with
`builtin_input` also feeding arbitrary lines): an optional sign followed by
digits only; `none` models the uncaught `std::invalid_argument` crash.
(`stoi`'s tolerance of trailing garbage and its overflow exception are not
modelled; no claim depends on them.) -/
def interpStoi (s : String) : Option Int :=
  match s.data with
  | '-' :: cs => if cs.isEmpty then none else (digitsToNatGo cs 0).map (fun m => -(m : Int))
  | cs => if cs.isEmpty then none else (digitsToNatGo cs 0).map (fun m => (m : Int))

/-- The parameter-binding loop of `callFunction` (interpreter.cpp lines
263-272): positional arguments into the current scope, missing ones getting
the type default. -/
def bindParams : List FuncParam → List Value → List VScope → List VScope
  | [], _, env => env
  | p :: ps, [], env => bindParams ps [] (envSetCur env p.name (defaultValue p.type))
  | p :: ps, v :: vs, env => bindParams ps vs (envSetCur env p.name v)

def funcsFind (fs : List (String × FuncDecl)) (n : String) : Option FuncDecl :=
  match fs.find? (fun p => p.1 == n) with
  | some p => some p.2
  | none => none

/-- Execution outcome carried by `Res.ok`. -/
inductive Out where
  | oval (v : Value)
  | ovals (vs : List Value)
  | onorm
  | oret (v : Option Value)
deriving Repr, DecidableEq

/-- Result of running the interpreter: normal completion with an outcome and
the updated state, an uncaught `runtime_error`/crash, or exhausted fuel. -/
inductive Res where
  | ok (o : Out) (st : IState)
  | err (msg : String)
  | fuelout
deriving Repr

/-- Work items of the interpreter core. -/
inductive Job where
  | jexpr (e : Expr)
  | jexprs (es : List Expr)
  | jstmt (s : Stmt)
  | jstmts (l : List Stmt)
  | jcall (fname : String) (args : List Value)
  | jfor (v : String) (i stop : Int) (b : List Stmt)
  | jwhile (c : Expr) (b : List Stmt)

/-- The binary-operator table of `evalExpr` (interpreter.cpp lines 181-204),
applied after both operands are evaluated.  `std::get` on a wrong variant
alternative and division by zero crash the process (`.err`); an untaken
`if` chain falls through to the trailing `return Value()`, i.e. `int 0`. -/
def binop (op : String) (lv rv : Value) (st : IState) : Res :=
  if op = "+" then
    match lv, rv with
    | .vint a, .vint b => .ok (.oval (.vint (a + b))) st
    | _, _ =>
      if lv.isString || rv.isString then
        .ok (.oval (.vstr (lv.toStr ++ rv.toStr))) st
      else .ok (.oval (.vint 0)) st
  else if op = "-" then
    match lv, rv with
    | .vint a, .vint b => .ok (.oval (.vint (a - b))) st
    | _, _ => .err "bad_variant_access"
  else if op = "*" then
    match lv, rv with
    | .vint a, .vint b => .ok (.oval (.vint (a * b))) st
    | _, _ => .err "bad_variant_access"
  else if op = "/" then
    match lv, rv with
    | .vint a, .vint b =>
      if b = 0 then .err "integer division by zero" else .ok (.oval (.vint (a.tdiv b))) st
    | _, _ => .err "bad_variant_access"
  else if op = "%" then
    match lv, rv with
    | .vint a, .vint b =>
      if b = 0 then .err "integer division by zero" else .ok (.oval (.vint (a.tmod b))) st
    | _, _ => .err "bad_variant_access"
  else if op = "==" then .ok (.oval (.vbool (lv.toStr == rv.toStr))) st
  else if op = "!=" then .ok (.oval (.vbool (!(lv.toStr == rv.toStr)))) st
  else if op = "<" then
    match lv, rv with
    | .vint a, .vint b => .ok (.oval (.vbool (a < b))) st
    | _, _ => .err "bad_variant_access"
  else if op = ">" then
    match lv, rv with
    | .vint a, .vint b => .ok (.oval (.vbool (b < a))) st
    | _, _ => .err "bad_variant_access"
  else if op = "<=" then
    match lv, rv with
    | .vint a, .vint b => .ok (.oval (.vbool (a ≤ b))) st
    | _, _ => .err "bad_variant_access"
  else if op = ">=" then
    match lv, rv with
    | .vint a, .vint b => .ok (.oval (.vbool (b ≤ a))) st
    | _, _ => .err "bad_variant_access"
  else if op = "&&" then
    match lv, rv with
    | .vbool a, .vbool b => .ok (.oval (.vbool (a && b))) st
    | _, _ => .err "bad_variant_access"
  else if op = "||" then
    match lv, rv with
    | .vbool a, .vbool b => .ok (.oval (.vbool (a || b))) st
    | _, _ => .err "bad_variant_access"
  else .ok (.oval (.vint 0)) st

/-- `Interpreter::builtin_input` (interpreter.cpp lines 297-317): consume a
line (EOF gives the empty string), coerce it to the variable's current type
if it exists, otherwise create it as a string via `setVar`. -/
def builtinInput (st : IState) (n : String) : Res :=
  let line := match st.inp with | l :: _ => l | [] => ""
  let st0 : IState := { st with inp := st.inp.tail }
  match envGet st0.env n with
  | some (.vint _) =>
    match interpStoi line with
    | some x => .ok .onorm { st0 with env := envSet st0.env n (.vint x) }
    | none => .ok .onorm { st0 with env := envSet st0.env n (.vint 0) }
  | some (.vbool _) => .ok .onorm { st0 with env := envSet st0.env n (.vbool (line == "true")) }
  | some (.vstr _) => .ok .onorm { st0 with env := envSet st0.env n (.vstr line) }
  | none => .ok .onorm { st0 with env := envSet st0.env n (.vstr line) }

/-- The interpreter core (interpreter.cpp): one fuel-indexed evaluator
covering `evalExpr`, `execStmt`, `execBlock`, the iteration of `execFor` and
`execWhile`, argument-list evaluation, and `callFunction`.  C++ control
effects are modelled in `Res`: `ReturnException` is the `.oret` outcome —
every construct propagates it upward (in particular `execBlock` skips its
`popScope`, which runs after the statement loop and is not protected by any
catch) until `jcall` catches it and pops exactly one scope; `runtime_error`
and process crashes are `.err`.  Fuel only bounds recursion depth and loop
iterations; a diverging C++ loop is `.fuelout` at every fuel.  The
`.err "internal"` arms are unreachable artifacts of the single result type
(a `jexprs` job always yields `.ovals`, a `jexpr` always `.oval`, a
statement `.onorm` or `.oret`). -/
def interp : Nat → Job → IState → Res
  | 0, _, _ => .fuelout
  | fuel+1, job, st =>
    match job with
    | .jexpr e =>
      match e with
      | .num v =>
        match interpStoi v with
        | some n => .ok (.oval (.vint n)) st
        | none => .err "stoi: invalid argument"
      | .boolLit v => .ok (.oval (.vbool (v == "true"))) st
      | .strLit v => .ok (.oval (.vstr v)) st
      | .var n =>
        match envGet st.env n with
        | some v => .ok (.oval v) st
        | none => .err ("Runtime error: use of undeclared variable '" ++ n ++ "'")
      | .call n args =>
        match interp fuel (.jexprs args) st with
        | .ok (.ovals vs) st1 => interp fuel (.jcall n vs) st1
        | .err m => .err m
        | .fuelout => .fuelout
        | .ok _ _ => .err "internal"
      | .unary op sub =>
        match interp fuel (.jexpr sub) st with
        | .ok (.oval v) st1 =>
          if op = "!" then
            match v with
            | .vbool b => .ok (.oval (.vbool (!b))) st1
            | _ => .err "bad_variant_access"
          else if op = "-" then
            match v with
            | .vint n => .ok (.oval (.vint (-n))) st1
            | _ => .err "bad_variant_access"
          else .ok (.oval (.vint 0)) st1
        | .err m => .err m
        | .fuelout => .fuelout
        | .ok _ _ => .err "internal"
      | .binary op l r =>
        match interp fuel (.jexpr l) st with
        | .ok (.oval lv) st1 =>
          match interp fuel (.jexpr r) st1 with
          | .ok (.oval rv) st2 => binop op lv rv st2
          | .err m => .err m
          | .fuelout => .fuelout
          | .ok _ _ => .err "internal"
        | .err m => .err m
        | .fuelout => .fuelout
        | .ok _ _ => .err "internal"
    | .jexprs es =>
      match es with
      | [] => .ok (.ovals []) st
      | e :: rest =>
        match interp fuel (.jexpr e) st with
        | .ok (.oval v) st1 =>
          match interp fuel (.jexprs rest) st1 with
          | .ok (.ovals vs) st2 => .ok (.ovals (v :: vs)) st2
          | .err m => .err m
          | .fuelout => .fuelout
          | .ok _ _ => .err "internal"
        | .err m => .err m
        | .fuelout => .fuelout
        | .ok _ _ => .err "internal"
    | .jstmt s =>
      match s with
      | .varDeclStmt ty n init =>
        match init with
        | some e =>
          match interp fuel (.jexpr e) st with
          | .ok (.oval v) st1 => .ok .onorm { st1 with env := envSetCur st1.env n v }
          | .err m => .err m
          | .fuelout => .fuelout
          | .ok _ _ => .err "internal"
        | none => .ok .onorm { st with env := envSetCur st.env n (defaultValue ty) }
      | .assignStmt n e =>
        match interp fuel (.jexpr e) st with
        | .ok (.oval v) st1 => .ok .onorm { st1 with env := envSet st1.env n v }
        | .err m => .err m
        | .fuelout => .fuelout
        | .ok _ _ => .err "internal"
      | .printStmt e =>
        match interp fuel (.jexpr e) st with
        | .ok (.oval v) st1 => .ok .onorm { st1 with out := st1.out ++ v.toStr }
        | .err m => .err m
        | .fuelout => .fuelout
        | .ok _ _ => .err "internal"
      | .inputStmt n => builtinInput st n
      | .newlineStmt => .ok .onorm { st with out := st.out ++ "\n" }
      | .returnStmt none => .ok (.oret none) st
      | .returnStmt (some e) =>
        match interp fuel (.jexpr e) st with
        | .ok (.oval v) st1 => .ok (.oret (some v)) st1
        | .err m => .err m
        | .fuelout => .fuelout
        | .ok _ _ => .err "internal"
      | .blockStmt b =>
        match interp fuel (.jstmts b) { st with env := [] :: st.env } with
        | .ok .onorm st1 => .ok .onorm { st1 with env := popScope st1.env }
        | .ok (.oret r) st1 => .ok (.oret r) st1
        | .err m => .err m
        | .fuelout => .fuelout
        | .ok _ _ => .err "internal"
      | .ifStmt c tb eb =>
        match interp fuel (.jexpr c) st with
        | .ok (.oval (.vbool bv)) st1 =>
          if bv then interp fuel (.jstmt (.blockStmt tb)) st1
          else
            match eb with
            | some ebl => interp fuel (.jstmt (.blockStmt ebl)) st1
            | none => .ok .onorm st1
        | .ok (.oval _) _ => .err "bad_variant_access"
        | .err m => .err m
        | .fuelout => .fuelout
        | .ok _ _ => .err "internal"
      | .whileStmt c b => interp fuel (.jwhile c b) st
      | .forStmt v s1 s2 b =>
        let st0 : IState :=
          if existsVarCur st.env v then st
          else { st with env := envSetCur st.env v (.vint 0) }
        match interp fuel (.jexpr s1) st0 with
        | .ok (.oval (.vint a)) st1 =>
          match interp fuel (.jexpr s2) st1 with
          | .ok (.oval (.vint bnd)) st2 => interp fuel (.jfor v a bnd b) st2
          | .ok (.oval _) _ => .err "bad_variant_access"
          | .err m => .err m
          | .fuelout => .fuelout
          | .ok _ _ => .err "internal"
        | .ok (.oval _) _ => .err "bad_variant_access"
        | .err m => .err m
        | .fuelout => .fuelout
        | .ok _ _ => .err "internal"
      | .funcCallStmt _ _ => .ok .onorm st
    | .jstmts l =>
      match l with
      | [] => .ok .onorm st
      | s :: rest =>
        match interp fuel (.jstmt s) st with
        | .ok .onorm st1 => interp fuel (.jstmts rest) st1
        | .ok (.oret r) st1 => .ok (.oret r) st1
        | .err m => .err m
        | .fuelout => .fuelout
        | .ok _ _ => .err "internal"
    | .jcall fname args =>
      match funcsFind st.funcs fname with
      | none => .err ("Call to undeclared function '" ++ fname ++ "'")
      | some f =>
        match interp fuel (.jstmts f.body)
            { st with env := bindParams f.params args ([] :: st.env) } with
        | .ok .onorm st2 => .ok (.oval (.vint 0)) { st2 with env := popScope st2.env }
        | .ok (.oret (some v)) st2 => .ok (.oval v) { st2 with env := popScope st2.env }
        | .ok (.oret none) st2 => .ok (.oval (.vint 0)) { st2 with env := popScope st2.env }
        | .err m => .err m
        | .fuelout => .fuelout
        | .ok _ _ => .err "internal"
    | .jfor v i stop b =>
      if stop < i then .ok .onorm st
      else
        match interp fuel (.jstmt (.blockStmt b)) { st with env := envSet st.env v (.vint i) } with
        | .ok .onorm st1 => interp fuel (.jfor v (i + 1) stop b) st1
        | .ok (.oret r) st1 => .ok (.oret r) st1
        | .err m => .err m
        | .fuelout => .fuelout
        | .ok _ _ => .err "internal"
    | .jwhile c b =>
      match interp fuel (.jexpr c) st with
      | .ok (.oval (.vbool bv)) st1 =>
        if bv then
          match interp fuel (.jstmt (.blockStmt b)) st1 with
          | .ok .onorm st2 => interp fuel (.jwhile c b) st2
          | .ok (.oret r) st2 => .ok (.oret r) st2
          | .err m => .err m
          | .fuelout => .fuelout
          | .ok _ _ => .err "internal"
        else .ok .onorm st1
      | .ok (.oval _) _ => .err "bad_variant_access"
      | .err m => .err m
      | .fuelout => .fuelout
      | .ok _ _ => .err "internal"

/-- `Interpreter::evalExpr` with an explicit recursion/iteration budget. -/
def evalExpr (fuel : Nat) (st : IState) (e : Expr) : Res :=
  interp fuel (.jexpr e) st

/-- `Interpreter::execStmt` with an explicit recursion/iteration budget. -/
def execStmt (fuel : Nat) (st : IState) (s : Stmt) : Res :=
  interp fuel (.jstmt s) st

/-- `Interpreter::execBlock` with an explicit recursion/iteration budget. -/
def execBlock (fuel : Nat) (st : IState) (b : List Stmt) : Res :=
  interp fuel (.jstmt (.blockStmt b)) st

/-- `Interpreter::callFunction` with an explicit recursion/iteration budget. -/
def callFunction (fuel : Nat) (st : IState) (fname : String) (args : List Value) : Res :=
  interp fuel (.jcall fname args) st

/-- `func f() { if (true) { return 1; } }`: the `return` sits inside the
`if`'s block, one `execBlock` deep in the function body. -/
def leak_f : FuncDecl :=
  ⟨"f", [], [Stmt.ifStmt (Expr.boolLit "true")
    [Stmt.returnStmt (some (Expr.num "1"))] none]⟩

/-- Interpreter state with one (global) scope and `f` registered. -/
def leak_state : IState := ⟨[[]], [("f", leak_f)], "", []⟩

/-- The outcome of a result, if it completed. -/
def resOut : Res → Option Out
  | .ok o _ => some o
  | _ => none

/-- The scope-stack depth after a completed run. -/
def resEnvDepth : Res → Option Nat
  | .ok _ st => some st.env.length
  | _ => none

end Interp

-- ======================================================================
-- Theorems
-- ======================================================================

namespace Optimizer

/-- A sweep never lengthens the code. -/
theorem dceSweep_length_le (code : List TAC) :
    ∀ rest i used, (dceSweep code i rest used).1.length ≤ rest.length := by
  intro rest
  induction rest with
  | nil => intro i used; simp [dceSweep]
  | cons t rest ih =>
    intro i used
    simp only [dceSweep]
    split
    · simpa using ih (i + 1) used
    · split
      · exact Nat.le_succ_of_le (ih (i + 1) _)
      · simpa using ih (i + 1) used

/-- A sweep that reports a removal returns a strictly shorter list. -/
theorem dceSweep_removed_lt (code : List TAC) :
    ∀ rest i used, (dceSweep code i rest used).2.2 = true →
      (dceSweep code i rest used).1.length < rest.length := by
  intro rest
  induction rest with
  | nil => intro i used h; simp [dceSweep] at h
  | cons t rest ih =>
    intro i used
    simp only [dceSweep]
    split
    · intro h
      simpa using Nat.succ_lt_succ (ih (i + 1) used (by simpa using h))
    · split
      · intro _
        exact Nat.lt_succ_of_le (dceSweep_length_le code rest (i + 1) _)
      · intro h
        simpa using Nat.succ_lt_succ (ih (i + 1) used (by simpa using h))

/-- Any fuel strictly above the code length yields the same `dceLoopF`
result: each continuing sweep strictly shrinks the list, so the loop always
reaches its fixed point before the fuel runs out. -/
theorem dceLoopF_fuel_irrel :
    ∀ n code used m, code.length < n → code.length < m →
      dceLoopF n code used = dceLoopF m code used := by
  intro n
  induction n with
  | zero => intro code used m h; omega
  | succ k ih =>
    intro code used m hk hm
    obtain ⟨j, rfl⟩ : ∃ j, m = j + 1 := ⟨m - 1, by omega⟩
    simp only [dceLoopF]
    by_cases hrm : (dceSweep code 0 code used).2.2 = true
    · simp only [hrm, if_true]
      have hlt := dceSweep_removed_lt code code 0 used hrm
      exact ih _ _ _ (by omega) (by omega)
    · simp [hrm]

/-- Generic helper: a pass that rewrites each instruction with a
label-respecting transformation preserves the label sequence. -/
theorem filter_label_cons (p : TAC → TAC × Bool) (hp : ∀ t, (p t).1.isLabel = t.isLabel)
    (hfix : ∀ t, t.isLabel = true → (p t).1 = t) (t : TAC) (a b : List TAC)
    (hab : a.filter (fun u => u.isLabel) = b.filter (fun u => u.isLabel)) :
    ((p t).1 :: a).filter (fun u => u.isLabel) = (t :: b).filter (fun u => u.isLabel) := by
  rw [List.filter_cons, List.filter_cons, hp t]
  by_cases hl : t.isLabel = true
  · simp only [hl, if_true, hfix t hl, hab]
  · rw [if_neg hl, if_neg hl, hab]

/-- Constant folding never touches a label instruction and never changes the
label flag. -/
theorem foldInstr_label (t : TAC) : (foldInstr t).1.isLabel = t.isLabel := by
  unfold foldInstr
  split
  · rfl
  · split
    · rfl
    · split
      · split
        · split
          · rfl
          · rfl
        · split
          · split
            · rfl
            · rfl
          · rfl
      · rfl

theorem foldInstr_fix (t : TAC) (h : t.isLabel = true) : (foldInstr t).1 = t := by
  unfold foldInstr
  rw [if_pos h]

theorem constantFold_filter_label (code : List TAC) :
    (constantFold code).1.filter (fun u => u.isLabel) = code.filter (fun u => u.isLabel) := by
  induction code with
  | nil => rfl
  | cons t rest ih =>
    simp only [constantFold]
    exact filter_label_cons foldInstr foldInstr_label foldInstr_fix t _ _ ih

/-- Strength reduction never touches a label instruction. -/
theorem reduceInstr_label (t : TAC) : (reduceInstr t).1.isLabel = t.isLabel := by
  unfold reduceInstr
  split
  · rfl
  · split
    · rfl
    · split
      · split
        · rfl
        · split
          · rfl
          · rfl
      · rfl

theorem reduceInstr_fix (t : TAC) (h : t.isLabel = true) : (reduceInstr t).1 = t := by
  unfold reduceInstr
  rw [if_pos h]

theorem strengthReduce_filter_label (code : List TAC) :
    (strengthReduce code).1.filter (fun u => u.isLabel) = code.filter (fun u => u.isLabel) := by
  induction code with
  | nil => rfl
  | cons t rest ih =>
    simp only [strengthReduce]
    exact filter_label_cons reduceInstr reduceInstr_label reduceInstr_fix t _ _ ih

/-- Substitution inside copy propagation keeps the label flag. -/
theorem cpSubst1_label (repl : List (String × String)) (changed : Bool) (t : TAC) :
    (cpSubst1 repl changed t).1.isLabel = t.isLabel := by
  unfold cpSubst1
  split
  · split <;> rfl
  · rfl

theorem cpSubst2_label (repl : List (String × String)) (s1 : TAC × Bool) :
    (cpSubst2 repl s1).1.isLabel = s1.1.isLabel := by
  unfold cpSubst2
  split
  · split <;> rfl
  · rfl

theorem cpSubst_label (repl : List (String × String)) (changed : Bool) (t : TAC) :
    (cpSubst repl changed t).1.isLabel = t.isLabel := by
  unfold cpSubst
  rw [cpSubst2_label, cpSubst1_label]

/-- Copy propagation skips labels and substitutes only inside non-label
instructions, so the label sequence is untouched. -/
theorem copyPropagateGo_filter_label :
    ∀ code repl changed, (copyPropagateGo repl changed code).1.filter (fun u => u.isLabel) =
      code.filter (fun u => u.isLabel) := by
  intro code
  induction code with
  | nil => intro repl changed; rfl
  | cons t rest ih =>
    intro repl changed
    by_cases hl : t.isLabel = true
    · simp only [copyPropagateGo, hl, if_true, List.filter_cons, cpSubst_label]
      simp [hl, ih]
    · simp only [copyPropagateGo, hl, Bool.false_eq_true, if_false, List.filter_cons,
        cpSubst_label]
      simp [hl, ih]

theorem copyPropagate_filter_label (code : List TAC) :
    (copyPropagate code).1.filter (fun u => u.isLabel) = code.filter (fun u => u.isLabel) :=
  copyPropagateGo_filter_label code [] false

theorem dceSweep_filter_label (code : List TAC) :
    ∀ rest i used, (dceSweep code i rest used).1.filter (fun u => u.isLabel) =
      rest.filter (fun u => u.isLabel) := by
  intro rest
  induction rest with
  | nil => intro i used; rfl
  | cons t rest ih =>
    intro i used
    simp only [dceSweep]
    split
    · rename_i hl
      simp only [List.filter_cons, hl, if_true]
      simp [ih]
    · rename_i hl
      simp only [Bool.not_eq_true] at hl
      split
      · simp only [List.filter_cons, hl]
        simp [ih]
      · simp only [List.filter_cons, hl]
        simp [ih]

theorem dceLoopF_filter_label :
    ∀ fuel code used, (dceLoopF fuel code used).filter (fun u => u.isLabel) =
      code.filter (fun u => u.isLabel) := by
  intro fuel
  induction fuel with
  | zero => intro code used; rfl
  | succ n ih =>
    intro code used
    simp only [dceLoopF]
    split
    · rw [ih, dceSweep_filter_label]
    · rw [dceSweep_filter_label]

theorem deadCodeElim_filter_label (code : List TAC) :
    (deadCodeElim code).1.filter (fun u => u.isLabel) = code.filter (fun u => u.isLabel) :=
  dceLoopF_filter_label _ _ _

theorem runRound_filter_label (code : List TAC) :
    (runRound code).1.filter (fun u => u.isLabel) = code.filter (fun u => u.isLabel) := by
  unfold runRound
  rw [deadCodeElim_filter_label, copyPropagate_filter_label,
    strengthReduce_filter_label, constantFold_filter_label]

theorem optLoop_filter_label :
    ∀ fuel code, (optLoop fuel code).filter (fun u => u.isLabel) =
      code.filter (fun u => u.isLabel) := by
  intro fuel
  induction fuel with
  | zero => intro code; rfl
  | succ n ih =>
    intro code
    simp only [optLoop]
    split
    · rw [ih, runRound_filter_label]
    · rw [runRound_filter_label]

/-- No op can be both removable-pure and side-effecting. -/
theorem pure_not_side (x : String) (h : x ∈ pureOps) : x ∉ sideEffectOps := by
  fin_cases h <;> decide

theorem dceSweep_filter_side (code : List TAC) :
    ∀ rest i used,
      (dceSweep code i rest used).1.filter (fun u => decide (u.op ∈ sideEffectOps)) =
        rest.filter (fun u => decide (u.op ∈ sideEffectOps)) := by
  intro rest
  induction rest with
  | nil => intro i used; rfl
  | cons t rest ih =>
    intro i used
    simp only [dceSweep]
    split
    · rw [List.filter_cons, List.filter_cons]
      by_cases hs : t.op ∈ sideEffectOps
      · simp [hs, ih]
      · simp [hs, ih]
    · split
      · rename_i hrm
        have hp : t.op ∈ pureOps := by
          simp only [Bool.and_eq_true] at hrm
          exact List.mem_of_elem_eq_true hrm.2
        rw [List.filter_cons]
        simp [pure_not_side t.op hp, ih]
      · rw [List.filter_cons, List.filter_cons]
        by_cases hs : t.op ∈ sideEffectOps
        · simp [hs, ih]
        · simp [hs, ih]

theorem dceLoopF_filter_side :
    ∀ fuel code used,
      (dceLoopF fuel code used).filter (fun u => decide (u.op ∈ sideEffectOps)) =
        code.filter (fun u => decide (u.op ∈ sideEffectOps)) := by
  intro fuel
  induction fuel with
  | zero => intro code used; rfl
  | succ n ih =>
    intro code used
    simp only [dceLoopF]
    split
    · rw [ih, dceSweep_filter_side]
    · rw [dceSweep_filter_side]

/-- Idempotence ingredients: an instruction left with a `false` change flag
was returned untouched. -/
theorem foldInstr_id_or_changed (t : TAC) : (foldInstr t).1 = t ∨ (foldInstr t).2 = true := by
  unfold foldInstr
  split
  · exact Or.inl rfl
  · split
    · exact Or.inl rfl
    · split
      · split
        · split
          · exact Or.inr rfl
          · exact Or.inl rfl
        · split
          · split
            · exact Or.inr rfl
            · exact Or.inl rfl
          · exact Or.inl rfl
      · exact Or.inl rfl

theorem constantFold_unchanged :
    ∀ code, (constantFold code).2 = false → (constantFold code).1 = code := by
  intro code
  induction code with
  | nil => intro _; rfl
  | cons t rest ih =>
    intro h
    simp only [constantFold, Bool.or_eq_false_iff] at h ⊢
    rcases foldInstr_id_or_changed t with he | hc
    · rw [he, ih h.2]
    · rw [hc] at h
      exact absurd h.1 (by simp)

theorem reduceInstr_id_or_changed (t : TAC) : (reduceInstr t).1 = t ∨ (reduceInstr t).2 = true := by
  unfold reduceInstr
  split
  · exact Or.inl rfl
  · split
    · exact Or.inl rfl
    · split
      · split
        · exact Or.inr rfl
        · split
          · exact Or.inr rfl
          · exact Or.inl rfl
      · exact Or.inl rfl

theorem strengthReduce_unchanged :
    ∀ code, (strengthReduce code).2 = false → (strengthReduce code).1 = code := by
  intro code
  induction code with
  | nil => intro _; rfl
  | cons t rest ih =>
    intro h
    simp only [strengthReduce, Bool.or_eq_false_iff] at h ⊢
    rcases reduceInstr_id_or_changed t with he | hc
    · rw [he, ih h.2]
    · rw [hc] at h
      exact absurd h.1 (by simp)

theorem cpSubst1_true (repl : List (String × String)) (t : TAC) :
    (cpSubst1 repl true t).2 = true := by
  unfold cpSubst1
  split
  · split <;> rfl
  · rfl

theorem cpSubst2_true (repl : List (String × String)) (s1 : TAC × Bool) (h : s1.2 = true) :
    (cpSubst2 repl s1).2 = true := by
  unfold cpSubst2
  split
  · split
    · rfl
    · exact h
  · exact h

theorem cpRecord_true (repl : List (String × String)) (t2 : TAC) :
    (cpRecord repl true t2).2 = true := by
  unfold cpRecord
  split
  · split <;> rfl
  · split <;> rfl

theorem cpUpdate_snd (repl : List (String × String)) (c : Bool) (t2 : TAC) :
    (cpUpdate repl c t2).2 = (cpRecord repl c t2).2 := by
  unfold cpUpdate
  split <;> rfl

theorem copyPropagateGo_true :
    ∀ code repl, (copyPropagateGo repl true code).2 = true := by
  intro code
  induction code with
  | nil => intro repl; rfl
  | cons t rest ih =>
    intro repl
    simp only [copyPropagateGo]
    split
    · exact ih repl
    · have hs : (cpSubst repl true t).2 = true :=
        cpSubst2_true repl _ (cpSubst1_true repl t)
      have hu : (cpUpdate repl (cpSubst repl true t).2 (cpSubst repl true t).1).2 = true := by
        rw [hs, cpUpdate_snd]
        exact cpRecord_true _ _
      simp only [hu]
      exact ih _

theorem cpSubst1_unchanged (repl : List (String × String)) (c : Bool) (t : TAC) :
    (cpSubst1 repl c t).2 = false → (cpSubst1 repl c t).1 = t := by
  unfold cpSubst1
  split
  · split
    · intro h; simp at h
    · intro _; rfl
  · intro _; rfl

theorem cpSubst2_unchanged (repl : List (String × String)) (s1 : TAC × Bool) :
    (cpSubst2 repl s1).2 = false → (cpSubst2 repl s1).1 = s1.1 ∧ s1.2 = false := by
  unfold cpSubst2
  split
  · split
    · intro h; simp at h
    · intro h; exact ⟨rfl, h⟩
  · intro h; exact ⟨rfl, h⟩

theorem cpRecord_false (repl : List (String × String)) (c : Bool) (t2 : TAC) :
    (cpRecord repl c t2).2 = false → c = false := by
  unfold cpRecord
  split
  · split
    · intro h; simp at h
    · intro h; exact h
  · split
    · intro h; exact h
    · intro h; exact h

theorem cpUpdate_false (repl : List (String × String)) (c : Bool) (t2 : TAC)
    (h : (cpUpdate repl c t2).2 = false) : c = false := by
  rw [cpUpdate_snd] at h
  exact cpRecord_false repl c t2 h

theorem copyPropagateGo_unchanged :
    ∀ code repl c, (copyPropagateGo repl c code).2 = false →
      (copyPropagateGo repl c code).1 = code := by
  intro code
  induction code with
  | nil => intro repl c _; rfl
  | cons t rest ih =>
    intro repl c
    simp only [copyPropagateGo]
    split
    · intro h
      rw [ih repl c (by simpa using h)]
    · intro h
      have h2 : (copyPropagateGo (cpUpdate repl (cpSubst repl c t).2 (cpSubst repl c t).1).1
          (cpUpdate repl (cpSubst repl c t).2 (cpSubst repl c t).1).2 rest).2 = false := h
      have hu2 : (cpUpdate repl (cpSubst repl c t).2 (cpSubst repl c t).1).2 = false := by
        by_contra hc
        rw [Bool.not_eq_false] at hc
        rw [hc, copyPropagateGo_true rest _] at h2
        exact absurd h2 (by simp)
      have hs2 : (cpSubst repl c t).2 = false := cpUpdate_false _ _ _ hu2
      have hsub := cpSubst2_unchanged repl (cpSubst1 repl c t) hs2
      have hfix : (cpSubst repl c t).1 = t := by
        calc (cpSubst repl c t).1 = (cpSubst1 repl c t).1 := hsub.1
        _ = t := cpSubst1_unchanged repl c t hsub.2
      show (cpSubst repl c t).1 ::
        (copyPropagateGo (cpUpdate repl (cpSubst repl c t).2 (cpSubst repl c t).1).1
          (cpUpdate repl (cpSubst repl c t).2 (cpSubst repl c t).1).2 rest).1 = t :: rest
      rw [ih _ _ h2, hfix]

theorem copyPropagate_unchanged (code : List TAC) (h : (copyPropagate code).2 = false) :
    (copyPropagate code).1 = code :=
  copyPropagateGo_unchanged code [] false h

theorem dceSweep_not_removed (code : List TAC) :
    ∀ rest i used, (dceSweep code i rest used).2.2 = false →
      (dceSweep code i rest used).1 = rest := by
  intro rest
  induction rest with
  | nil => intro i used _; rfl
  | cons t rest ih =>
    intro i used
    simp only [dceSweep]
    split
    · intro h
      rw [ih (i + 1) used (by simpa using h)]
    · split
      · intro h
        simp at h
      · intro h
        rw [ih (i + 1) used (by simpa using h)]

theorem dceLoopF_le :
    ∀ fuel code used, (dceLoopF fuel code used).length ≤ code.length := by
  intro fuel
  induction fuel with
  | zero => intro code used; exact le_refl _
  | succ n ih =>
    intro code used
    simp only [dceLoopF]
    split
    · rename_i h
      exact le_trans (ih _ _) (le_of_lt (dceSweep_removed_lt code code 0 used h))
    · exact dceSweep_length_le code code 0 used

theorem deadCodeElim_unchanged (code : List TAC) (h : (deadCodeElim code).2 = false) :
    (deadCodeElim code).1 = code := by
  unfold deadCodeElim at h ⊢
  simp only [decide_eq_false_iff_not, Nat.not_lt] at h
  simp only [dceLoopF] at h ⊢
  by_cases hrm : (dceSweep code 0 code (computeUsed code)).2.2 = true
  · rw [if_pos hrm] at h ⊢
    exfalso
    have h1 := dceLoopF_le code.length (dceSweep code 0 code (computeUsed code)).1
      (dceSweep code 0 code (computeUsed code)).2.1
    have h2 := dceSweep_removed_lt code code 0 (computeUsed code) hrm
    omega
  · rw [if_neg hrm] at h ⊢
    exact dceSweep_not_removed code code 0 (computeUsed code) (Bool.not_eq_true _ ▸ hrm)

theorem runRound_unchanged (code : List TAC) (h : (runRound code).2 = false) :
    (runRound code).1 = code := by
  have h' : ((constantFold code).2 || (strengthReduce (constantFold code).1).2 ||
      (copyPropagate (strengthReduce (constantFold code).1).1).2 ||
      (deadCodeElim (copyPropagate (strengthReduce (constantFold code).1).1).1).2) = false := h
  simp only [Bool.or_eq_false_iff] at h'
  obtain ⟨⟨⟨h1, h2⟩, h3⟩, h4⟩ := h'
  show (deadCodeElim (copyPropagate (strengthReduce (constantFold code).1).1).1).1 = code
  rw [constantFold_unchanged code h1] at h2 h3 h4 ⊢
  rw [strengthReduce_unchanged code h2] at h3 h4 ⊢
  rw [copyPropagate_unchanged code h3] at h4 ⊢
  exact deadCodeElim_unchanged code h4

end Optimizer

/-- Claim C8: the optimizer never removes and never reorders any label
instruction (the sequence of labels in `optimize`'s output equals the input's
label sequence), and dead-code elimination never removes an instruction whose
op is `call`, `print`, `input`, `return`, `goto` or `ifFalse` (the sequence
of such instructions is preserved exactly). -/
theorem claim8_labels_and_side_effects_preserved (code : List TAC) :
    (Optimizer.optimize code).filter (fun t => t.isLabel) =
      code.filter (fun t => t.isLabel) ∧
    (Optimizer.deadCodeElim code).1.filter (fun t => decide (t.op ∈ Optimizer.sideEffectOps)) =
      code.filter (fun t => decide (t.op ∈ Optimizer.sideEffectOps)) :=
  ⟨Optimizer.optLoop_filter_label 10 code, Optimizer.dceLoopF_filter_side _ _ _⟩


/-- Claim C9, counterexample: `optimize` is not idempotent.  On
`opt_chain_example` each round folds one link of the chain and propagates it
one step, so the ten-round cap stops before the fixed point and a second
call to `optimize` changes the list further. -/
theorem claim9_counterexample :
    Optimizer.optimize (Optimizer.optimize opt_chain_example) ≠
      Optimizer.optimize opt_chain_example := by decide

/-- Claim C9, amended: the internal fixed-point loop performs at most 10
rounds of the four passes, and whenever a round reports no change the
optimizer returns its input unchanged — so `optimize` is idempotent exactly
on inputs whose optimization reaches the fixed point within the cap, and
`opt_chain_example` shows it is not idempotent in general. -/
theorem claim9_bounded_rounds_idempotent_on_fixpoints (code : List TAC)
    (h : (Optimizer.runRound code).2 = false) :
    Optimizer.optimize code = code := by
  show (if (Optimizer.runRound code).2 then Optimizer.optLoop 9 (Optimizer.runRound code).1
    else (Optimizer.runRound code).1) = code
  rw [h]
  simp only [Bool.false_eq_true, if_false]
  exact Optimizer.runRound_unchanged code h

/-- Witness: the amended claim C9 theorem applied to the concrete stable
list `opt_stable_example`. -/
theorem claim9_witness :
    (Optimizer.runRound opt_stable_example).2 = false ∧
      Optimizer.optimize opt_stable_example = opt_stable_example :=
  ⟨by decide, claim9_bounded_rounds_idempotent_on_fixpoints opt_stable_example (by decide)⟩

namespace IRGenerator

theorem CodeExt.refl (c : List TAC) (P : TAC → Prop) : CodeExt c c P :=
  ⟨[], by simp, by simp⟩

theorem CodeExt.trans {c₁ c₂ c₃ : List TAC} {P : TAC → Prop}
    (h1 : CodeExt c₁ c₂ P) (h2 : CodeExt c₂ c₃ P) : CodeExt c₁ c₃ P := by
  obtain ⟨d1, e1, m1⟩ := h1
  obtain ⟨d2, e2, m2⟩ := h2
  refine ⟨d1 ++ d2, by rw [e2, e1, List.append_assoc], ?_⟩
  intro t ht
  rcases List.mem_append.mp ht with h | h
  · exact m1 t h
  · exact m2 t h

theorem CodeExt.mono {c c' : List TAC} {P Q : TAC → Prop}
    (h : CodeExt c c' P) (hpq : ∀ t, P t → Q t) : CodeExt c c' Q := by
  obtain ⟨d, e, m⟩ := h
  exact ⟨d, e, fun t ht => hpq t (m t ht)⟩

theorem CodeExt.snoc {c c' : List TAC} {P : TAC → Prop} {t : TAC}
    (h : CodeExt c c' P) (hp : P t) : CodeExt c (c' ++ [t]) P := by
  obtain ⟨d, e, m⟩ := h
  refine ⟨d ++ [t], by rw [e, List.append_assoc], ?_⟩
  intro u hu
  rcases List.mem_append.mp hu with h | h
  · exact m u h
  · simp at h; subst h; exact hp

/-- Label-free code segments satisfy the statement-segment invariant. -/
theorem exprSeg {c c' : List TAC} (h : CodeExt c c' (fun t => t.isLabel = false)) :
    CodeExt c c' bodyInstrOk :=
  h.mono (fun t ht => by intro hh; rw [hh] at ht; cases ht)

mutual

/-- `IRGenerator::genExpr` emits no label instruction. -/
theorem genExpr_appends (e : Expr) (st : IRState) :
    CodeExt st.code (genExpr e st).2.code (fun t => t.isLabel = false) := by
  match e with
  | .num v => exact CodeExt.refl _ _
  | .boolLit v => exact CodeExt.refl _ _
  | .strLit v => exact CodeExt.refl _ _
  | .var n => exact CodeExt.refl _ _
  | .call n args =>
    exact CodeExt.snoc (genArgs_appends args "" true st) rfl
  | .unary op e1 =>
    exact CodeExt.snoc (genExpr_appends e1 st) rfl
  | .binary op l r =>
    exact CodeExt.snoc
      ((genExpr_appends l st).trans (genExpr_appends r (genExpr l st).2)) rfl

theorem genArgs_appends (es : List Expr) (acc : String) (first : Bool) (st : IRState) :
    CodeExt st.code (genArgs es acc first st).2.code (fun t => t.isLabel = false) := by
  match es with
  | [] => exact CodeExt.refl _ _
  | e :: rest =>
    exact (genExpr_appends e st).trans
      (genArgs_appends rest (if first then (genExpr e st).1
        else acc ++ ", " ++ (genExpr e st).1) false (genExpr e st).2)

end

mutual

/-- `IRGenerator::genStmt` emits only `L<n>` labels. -/
theorem genStmt_appends (s : Stmt) (st : IRState) :
    CodeExt st.code (genStmt s st).code bodyInstrOk := by
  match s with
  | .varDeclStmt ty n init =>
    match init with
    | some e =>
      exact CodeExt.snoc (exprSeg (genExpr_appends e st)) (fun h => nomatch h)
    | none =>
      show CodeExt st.code (if ty == "int" then emitAssign n "0" st
        else if ty == "bool" then emitAssign n "false" st
        else emitAssign n "\"\"" st).code bodyInstrOk
      split
      · exact CodeExt.snoc (CodeExt.refl _ _) (fun h => nomatch h)
      · split
        · exact CodeExt.snoc (CodeExt.refl _ _) (fun h => nomatch h)
        · exact CodeExt.snoc (CodeExt.refl _ _) (fun h => nomatch h)
  | .assignStmt n e =>
    exact CodeExt.snoc (exprSeg (genExpr_appends e st)) (fun h => nomatch h)
  | .printStmt e =>
    exact CodeExt.snoc (exprSeg (genExpr_appends e st)) (fun h => nomatch h)
  | .newlineStmt =>
    exact CodeExt.snoc (CodeExt.refl _ _) (fun h => nomatch h)
  | .returnStmt value =>
    match value with
    | some e =>
      exact CodeExt.snoc (exprSeg (genExpr_appends e st)) (fun h => nomatch h)
    | none =>
      exact CodeExt.snoc (CodeExt.refl _ _) (fun h => nomatch h)
  | .forStmt v startE stopE block =>
    refine CodeExt.snoc ?_ (fun _ => ⟨_, rfl⟩)
    refine CodeExt.snoc ?_ (fun h => nomatch h)
    refine CodeExt.snoc ?_ (fun h => nomatch h)
    refine CodeExt.snoc ?_ (fun h => nomatch h)
    refine CodeExt.trans ?_ (genBlock_appends block _)
    refine CodeExt.snoc ?_ (fun h => nomatch h)
    refine CodeExt.snoc ?_ (fun h => nomatch h)
    refine CodeExt.trans ?_ (exprSeg (genExpr_appends stopE _))
    refine CodeExt.snoc ?_ (fun _ => ⟨_, rfl⟩)
    refine CodeExt.snoc ?_ (fun h => nomatch h)
    exact exprSeg (genExpr_appends startE st)
  | .whileStmt cond block =>
    refine CodeExt.snoc ?_ (fun _ => ⟨_, rfl⟩)
    refine CodeExt.snoc ?_ (fun h => nomatch h)
    refine CodeExt.trans ?_ (genBlock_appends block _)
    refine CodeExt.snoc ?_ (fun h => nomatch h)
    refine CodeExt.trans ?_ (exprSeg (genExpr_appends cond _))
    refine CodeExt.snoc ?_ (fun _ => ⟨_, rfl⟩)
    exact CodeExt.refl _ _
  | .ifStmt cond thenB elseB =>
    match elseB with
    | some eb =>
      refine CodeExt.snoc ?_ (fun _ => ⟨_, rfl⟩)
      refine CodeExt.trans ?_ (genBlock_appends eb _)
      refine CodeExt.snoc ?_ (fun _ => ⟨_, rfl⟩)
      refine CodeExt.snoc ?_ (fun h => nomatch h)
      refine CodeExt.trans ?_ (genBlock_appends thenB _)
      refine CodeExt.snoc ?_ (fun h => nomatch h)
      refine CodeExt.trans ?_ (exprSeg (genExpr_appends cond _))
      exact CodeExt.refl _ _
    | none =>
      refine CodeExt.snoc ?_ (fun _ => ⟨_, rfl⟩)
      refine CodeExt.snoc ?_ (fun h => nomatch h)
      refine CodeExt.trans ?_ (genBlock_appends thenB _)
      refine CodeExt.snoc ?_ (fun h => nomatch h)
      refine CodeExt.trans ?_ (exprSeg (genExpr_appends cond _))
      exact CodeExt.refl _ _
  | .blockStmt b => exact genBlock_appends b st
  | .funcCallStmt n args => exact CodeExt.refl _ _
  | .inputStmt n => exact CodeExt.refl _ _

theorem genBlock_appends (l : List Stmt) (st : IRState) :
    CodeExt st.code (genBlock l st).code bodyInstrOk := by
  match l with
  | [] => exact CodeExt.refl _ _
  | s :: rest =>
    exact (genStmt_appends s st).trans (genBlock_appends rest (genStmt s st))

end

end IRGenerator

namespace IRGenerator

/-- Left-cancellation for string concatenation. -/
theorem str_append_cancel {a x y : String} (h : a ++ x = a ++ y) : x = y := by
  have h2 := congrArg String.data h
  rw [String.data_append, String.data_append] at h2
  exact String.ext (List.append_cancel_left h2)

theorem L_ne_endfunc (n : Nat) (fn : String) : "L" ++ Nat.repr n ≠ "endfunc_" ++ fn := by
  intro h
  have h2 := congrArg String.data h
  rw [String.data_append, String.data_append,
    show ("L" : String).data = ['L'] from rfl,
    show ("endfunc_" : String).data = ['e', 'n', 'd', 'f', 'u', 'n', 'c', '_'] from rfl] at h2
  simp at h2

theorem L_ne_func (n : Nat) (fn : String) : "L" ++ Nat.repr n ≠ "func_" ++ fn := by
  intro h
  have h2 := congrArg String.data h
  rw [String.data_append, String.data_append,
    show ("L" : String).data = ['L'] from rfl,
    show ("func_" : String).data = ['f', 'u', 'n', 'c', '_'] from rfl] at h2
  simp at h2

theorem endfunc_ne_func (a b : String) : "endfunc_" ++ a ≠ "func_" ++ b := by
  intro h
  have h2 := congrArg String.data h
  rw [String.data_append, String.data_append,
    show ("endfunc_" : String).data = ['e', 'n', 'd', 'f', 'u', 'n', 'c', '_'] from rfl,
    show ("func_" : String).data = ['f', 'u', 'n', 'c', '_'] from rfl] at h2
  simp at h2

theorem L_lacks_func_marker (n : Nat) :
    ¬("func_".data.isPrefixOf (("L" ++ Nat.repr n).data) = true) := by
  intro h
  rw [String.data_append, show ("L" : String).data = ['L'] from rfl,
    show ("func_" : String).data = ['f', 'u', 'n', 'c', '_'] from rfl] at h
  simp [List.isPrefixOf] at h

/-- Control labels are never function boundary labels. -/
theorem bodyInstrOk_notBoundary (fn : String) (t : TAC) (h : bodyInstrOk t) :
    notBoundaryOf fn t := by
  constructor
  · rintro ⟨hl, hr⟩
    obtain ⟨n, hres⟩ := h hl
    exact L_ne_endfunc n fn (hres.symm.trans hr)
  · rintro ⟨hl, hr⟩
    obtain ⟨n, hres⟩ := h hl
    exact L_ne_func n fn (hres.symm.trans hr)

/-- The code appended by `genFunc`: the `func_` label, the body, the
defensive `return`, the `endfunc_` label. -/
theorem genFunc_code (f : FuncDecl) (st : IRState) :
    ∃ Δ, (genFunc f st).code =
      st.code ++ { res := "func_" ++ f.name, isLabel := true } ::
        (Δ ++ [{ op := "return" }, { res := "endfunc_" ++ f.name, isLabel := true }]) ∧
      ∀ t ∈ Δ, bodyInstrOk t := by
  obtain ⟨Δ, hΔ, m⟩ :=
    genBlock_appends f.body (emit { res := "func_" ++ f.name, isLabel := true } st)
  refine ⟨Δ, ?_, m⟩
  show (emit _ (emit { op := "return" } (genBlock f.body _))).code = _
  simp only [emit] at hΔ ⊢
  rw [hΔ]
  simp

/-- A whole function section carries no boundary label of a differently
named function. -/
theorem genFunc_notBoundary (g : FuncDecl) (st : IRState) (fn : String) (hne : g.name ≠ fn) :
    CodeExt st.code (genFunc g st).code (notBoundaryOf fn) := by
  obtain ⟨Δ, he, m⟩ := genFunc_code g st
  refine ⟨_, he, ?_⟩
  intro t ht
  simp only [List.mem_cons, List.mem_append] at ht
  rcases ht with rfl | (h | h)
  · constructor
    · rintro ⟨_, hr⟩
      exact endfunc_ne_func fn g.name hr.symm
    · rintro ⟨_, hr⟩
      exact hne (str_append_cancel hr)
  · exact bodyInstrOk_notBoundary fn t (m t h)
  · simp only [List.mem_cons, List.not_mem_nil, or_false, List.mem_singleton] at h
    rcases h with rfl | rfl
    · exact ⟨(by rintro ⟨hl, _⟩; cases hl), (by rintro ⟨hl, _⟩; cases hl)⟩
    · constructor
      · rintro ⟨_, hr⟩
        exact hne (str_append_cancel hr)
      · rintro ⟨_, hr⟩
        exact endfunc_ne_func g.name fn hr

theorem genFuncsLoop_split (a b : List Node) (st : IRState) :
    genFuncsLoop (a ++ b) st = genFuncsLoop b (genFuncsLoop a st) := by
  induction a generalizing st with
  | nil => rfl
  | cons n rest ih =>
    cases n with
    | func f => simp only [List.cons_append, genFuncsLoop]; exact ih (genFunc f st)
    | stmt s => simp only [List.cons_append, genFuncsLoop]; exact ih st

theorem genFuncsLoop_notBoundary (nodes : List Node) (st : IRState) (fn : String)
    (h : ∀ g, Node.func g ∈ nodes → g.name ≠ fn) :
    CodeExt st.code (genFuncsLoop nodes st).code (notBoundaryOf fn) := by
  induction nodes generalizing st with
  | nil => exact CodeExt.refl _ _
  | cons n rest ih =>
    cases n with
    | func g =>
      exact (genFunc_notBoundary g st fn (h g (by simp))).trans
        (ih (genFunc g st) (fun g' hg' => h g' (by simp [hg'])))
    | stmt s => exact ih st (fun g' hg' => h g' (by simp [hg']))

theorem genTopLoop_appends (nodes : List Node) (st : IRState) :
    CodeExt st.code (genTopLoop nodes st).code bodyInstrOk := by
  induction nodes generalizing st with
  | nil => exact CodeExt.refl _ _
  | cons n rest ih =>
    cases n with
    | func f => exact ih st
    | stmt s =>
      cases s with
      | varDeclStmt ty nm init =>
        cases init with
        | some e => exact (genStmt_appends (.varDeclStmt ty nm (some e)) st).trans (ih _)
        | none => exact (genStmt_appends (.varDeclStmt ty nm none) st).trans (ih _)
      | blockStmt b => exact (genStmt_appends (.blockStmt b) st).trans (ih _)
      | assignStmt nm e => exact (genStmt_appends (.assignStmt nm e) st).trans (ih _)
      | printStmt e => exact (genStmt_appends (.printStmt e) st).trans (ih _)
      | funcCallStmt nm args => exact (genStmt_appends (.funcCallStmt nm args) st).trans (ih _)
      | returnStmt v => exact (genStmt_appends (.returnStmt v) st).trans (ih _)
      | inputStmt nm => exact (genStmt_appends (.inputStmt nm) st).trans (ih _)
      | newlineStmt => exact (genStmt_appends .newlineStmt st).trans (ih _)
      | ifStmt c tb eb => exact (genStmt_appends (.ifStmt c tb eb) st).trans (ih _)
      | whileStmt c b => exact (genStmt_appends (.whileStmt c b) st).trans (ih _)
      | forStmt v a b blk => exact (genStmt_appends (.forStmt v a b blk) st).trans (ih _)

/-- A `notBoundaryOf fn` instruction fails both boundary label tests. -/
theorem notBoundary_endP {fn : String} {t : TAC} (h : notBoundaryOf fn t) :
    endP fn t = false := by
  unfold endP
  by_cases hl : t.isLabel = true
  · rw [hl]
    simp only [Bool.true_and, beq_eq_false_iff_ne, ne_eq]
    intro hr
    exact h.1 ⟨hl, hr⟩
  · simp only [Bool.not_eq_true] at hl
    rw [hl]
    rfl

theorem notBoundary_funcP {fn : String} {t : TAC} (h : notBoundaryOf fn t) :
    funcP fn t = false := by
  unfold funcP
  by_cases hl : t.isLabel = true
  · rw [hl]
    simp only [Bool.true_and, beq_eq_false_iff_ne, ne_eq]
    intro hr
    exact h.2 ⟨hl, hr⟩
  · simp only [Bool.not_eq_true] at hl
    rw [hl]
    rfl

theorem countP_zero_of_notBoundary {fn : String} {l : List TAC}
    (h : ∀ t ∈ l, notBoundaryOf fn t) :
    l.countP (endP fn) = 0 ∧ l.countP (funcP fn) = 0 :=
  ⟨List.countP_eq_zero.mpr (fun t ht => by simp [notBoundary_endP (h t ht)]),
   List.countP_eq_zero.mpr (fun t ht => by simp [notBoundary_funcP (h t ht)])⟩

end IRGenerator

/-- Claim C3, counterexample: on the concrete statement `foo(1);` the IR
generator emits nothing at all — the state (and in particular the emitted
code) is unchanged, so no `call` instruction with callee `foo` and empty
result appears. -/
theorem claim3_counterexample :
    IRGenerator.genStmt (Stmt.funcCallStmt "foo" [Expr.num "1"]) ⟨0, 0, []⟩ =
      (⟨0, 0, []⟩ : IRGenerator.IRState) := rfl

/-- Claim C3, amended: `IRGenerator::genStmt` has no case for
`FuncCallStmt`; a function-call-as-statement falls through the
`dynamic_cast` chain and is ignored, emitting no TAC instruction (statement
calls reach the generated program only through the code generator's AST
fallback). -/
theorem claim3_funcCallStmt_ignored (name : String) (args : List Expr)
    (st : IRGenerator.IRState) :
    IRGenerator.genStmt (Stmt.funcCallStmt name args) st = st := rfl

/-- Claim C7: in the TAC stream of any program whose function names are
distinct (semantic analysis rejects duplicate function names before IR
generation runs), each function `F` contributes a `func_F` label, followed
by a body containing no `func_*` label, then a `return` instruction
immediately before the unique `endfunc_F` label; `func_F` and `endfunc_F`
each occur exactly once in the whole stream, and all function code precedes
all top-level code. -/
theorem claim7_function_boundaries (p : Program) (f : FuncDecl)
    (hf : Node.func f ∈ p.decls)
    (hnd : ((IRGenerator.progFuncs p).map FuncDecl.name).Nodup) :
    ∃ A B C,
      IRGenerator.generate p =
        A ++ { res := "func_" ++ f.name, isLabel := true } ::
          (B ++ { op := "return" } ::
            { res := "endfunc_" ++ f.name, isLabel := true } :: C) ∧
      (∀ t ∈ B, ¬(t.isLabel = true ∧ "func_".data.isPrefixOf t.res.data = true)) ∧
      (IRGenerator.generate p).countP (IRGenerator.endP f.name) = 1 ∧
      (IRGenerator.generate p).countP (IRGenerator.funcP f.name) = 1 ∧
      ∃ topCode, IRGenerator.generate p =
        (IRGenerator.genFuncsLoop p.decls ⟨0, 0, []⟩).code ++ topCode := by
  classical
  open IRGenerator in
  obtain ⟨n1, n2, hsplit⟩ := List.append_of_mem hf
  have hpf : progFuncs p =
      (n1.filterMap fun n => match n with | .func g => some g | .stmt _ => none) ++
        f :: (n2.filterMap fun n => match n with | .func g => some g | .stmt _ => none) := by
    unfold progFuncs
    rw [hsplit, List.filterMap_append, List.filterMap_cons]
  rw [hpf, List.map_append, List.map_cons] at hnd
  have hnotin1 : f.name ∉
      (n1.filterMap fun n => match n with | .func g => some g | .stmt _ => none).map
        FuncDecl.name := by
    intro hmem
    exact (List.disjoint_of_nodup_append hnd) hmem (List.mem_cons_self _ _)
  have hnotin2 : f.name ∉
      (n2.filterMap fun n => match n with | .func g => some g | .stmt _ => none).map
        FuncDecl.name :=
    (List.nodup_cons.mp (List.Nodup.of_append_right hnd)).1
  have hothers1 : ∀ g, Node.func g ∈ n1 → g.name ≠ f.name := by
    intro g hg heq
    apply hnotin1
    rw [← heq]
    exact List.mem_map_of_mem _ (List.mem_filterMap.mpr ⟨Node.func g, hg, rfl⟩)
  have hothers2 : ∀ g, Node.func g ∈ n2 → g.name ≠ f.name := by
    intro g hg heq
    apply hnotin2
    rw [← heq]
    exact List.mem_map_of_mem _ (List.mem_filterMap.mpr ⟨Node.func g, hg, rfl⟩)
  have hgenfl : genFuncsLoop p.decls ⟨0, 0, []⟩ =
      genFuncsLoop n2 (genFunc f (genFuncsLoop n1 ⟨0, 0, []⟩)) := by
    rw [hsplit, genFuncsLoop_split]
    rfl
  obtain ⟨A, hA, mA⟩ := genFuncsLoop_notBoundary n1 ⟨0, 0, []⟩ f.name hothers1
  obtain ⟨B, hB, mB⟩ := genFunc_code f (genFuncsLoop n1 ⟨0, 0, []⟩)
  obtain ⟨C1, hC1, mC1⟩ :=
    genFuncsLoop_notBoundary n2 (genFunc f (genFuncsLoop n1 ⟨0, 0, []⟩)) f.name hothers2
  obtain ⟨T, hT, mT⟩ := genTopLoop_appends p.decls (genFuncsLoop p.decls ⟨0, 0, []⟩)
  have hgen : generate p = A ++ { res := "func_" ++ f.name, isLabel := true } ::
      (B ++ { op := "return" } ::
        { res := "endfunc_" ++ f.name, isLabel := true } :: (C1 ++ T)) := by
    show (genTopLoop p.decls (genFuncsLoop p.decls ⟨0, 0, []⟩)).code = _
    rw [hT, hgenfl, hC1, hB, hA]
    simp
  have hBndA : A.countP (endP f.name) = 0 ∧ A.countP (funcP f.name) = 0 :=
    countP_zero_of_notBoundary mA
  have hBndB : B.countP (endP f.name) = 0 ∧ B.countP (funcP f.name) = 0 :=
    countP_zero_of_notBoundary (fun t ht => bodyInstrOk_notBoundary f.name t (mB t ht))
  have hBndC : C1.countP (endP f.name) = 0 ∧ C1.countP (funcP f.name) = 0 :=
    countP_zero_of_notBoundary mC1
  have hBndT : T.countP (endP f.name) = 0 ∧ T.countP (funcP f.name) = 0 :=
    countP_zero_of_notBoundary (fun t ht => bodyInstrOk_notBoundary f.name t (mT t ht))
  have efl : endP f.name { res := "func_" ++ f.name, isLabel := true } = false := by
    simp only [endP, Bool.true_and, beq_eq_false_iff_ne, ne_eq]
    exact fun h => endfunc_ne_func f.name f.name h.symm
  have ffl : funcP f.name { res := "func_" ++ f.name, isLabel := true } = true := by
    simp [funcP]
  have eel : endP f.name { res := "endfunc_" ++ f.name, isLabel := true } = true := by
    simp [endP]
  have fel : funcP f.name { res := "endfunc_" ++ f.name, isLabel := true } = false := by
    simp only [funcP, Bool.true_and, beq_eq_false_iff_ne, ne_eq]
    exact endfunc_ne_func f.name f.name
  refine ⟨A, B, C1 ++ T, hgen, ?_, ?_, ?_, ⟨T, ?_⟩⟩
  · intro t ht hcon
    obtain ⟨n, hres⟩ := mB t ht hcon.1
    rw [hres] at hcon
    exact L_lacks_func_marker n hcon.2
  · rw [hgen]
    simp [List.countP_append, List.countP_cons, hBndA.1, hBndB.1, hBndC.1, hBndT.1,
      efl, eel, endP]
    exact fun h => endfunc_ne_func f.name f.name h.symm
  · rw [hgen]
    simp [List.countP_append, List.countP_cons, hBndA.2, hBndB.2, hBndC.2, hBndT.2,
      ffl, fel, funcP]
    exact endfunc_ne_func f.name f.name
  · show (genTopLoop p.decls (genFuncsLoop p.decls ⟨0, 0, []⟩)).code = _
    rw [hT]

/-- Witness: the boundary theorem applied to the concrete program
`ir_demo_program` (one function `f` and one top-level print). -/
theorem claim7_witness :
    ∃ A B C,
      IRGenerator.generate ir_demo_program =
        A ++ { res := "func_" ++ "f", isLabel := true } ::
          (B ++ { op := "return" } ::
            { res := "endfunc_" ++ "f", isLabel := true } :: C) ∧
      (∀ t ∈ B, ¬(t.isLabel = true ∧ "func_".data.isPrefixOf t.res.data = true)) ∧
      (IRGenerator.generate ir_demo_program).countP (IRGenerator.endP "f") = 1 ∧
      (IRGenerator.generate ir_demo_program).countP (IRGenerator.funcP "f") = 1 ∧
      ∃ topCode, IRGenerator.generate ir_demo_program =
        (IRGenerator.genFuncsLoop ir_demo_program.decls ⟨0, 0, []⟩).code ++ topCode :=
  claim7_function_boundaries ir_demo_program ⟨"f", [], []⟩
    (by simp [ir_demo_program]) (by decide)

/-- Claim C4, failing-input evaluation: on the source `// hi` the lexer does
not consume the comment to end-of-line and does produce a token from the
comment body.  `Lexer.tokenize` is entered with the first `/` already
consumed, so `skipComment`'s `match('/') && match('/')` consumes only the
second slash and both of its branches fail; the body `hi` is then lexed as
an identifier token.  A triple-slash comment is skipped to end-of-line as
the claim expects, confirming the off-by-one slip. -/
theorem claim4_line_comment_not_skipped :
    Lexer.tokenize "// hi" =
      [⟨Lexer.TokenType.ID, "hi", 1⟩, ⟨Lexer.TokenType.END_OF_FILE, "EOF", 1⟩] ∧
    Lexer.tokenize "/// hi" = [⟨Lexer.TokenType.END_OF_FILE, "EOF", 1⟩] := by decide

/-- Claim C2, failing-input evaluation: for the TAC instruction `print 1`,
the in-function emission loop writes the operand without a newline, but the
top-level (`main`) emission loop appends `<< endl` — a top-level `print`
statement gains a trailing newline in the generated program, contradicting
the claim (and the interpreter, which prints without a newline). -/
theorem claim2_top_level_print_appends_newline :
    (CodeGenerator.genMainInstr [] [] { op := "print", arg1 := "1" }).1 =
      "    cout << 1 << endl;\n" ∧
    (CodeGenerator.genFuncInstr [] [] { op := "print", arg1 := "1" }).1 =
      "    cout << 1;\n" := by
  constructor <;> rfl

/-- Claim C1, counterexample: the program `func f() { if (1) { } }` passes
semantic analysis, yet the if-condition `1` has analyzer type `int`, not
`bool` — inside function bodies the `walkStmt` lambda only analyzes
conditions, it never checks their type. -/
theorem claim1_counterexample :
    Sema.analyzeAccepts Sema.sema_condition_program = true ∧
    (Sema.analyzeExpr Sema.sema_condition_context (Expr.num "1")).toOption =
      some Sema.TypeKind.TYPE_INT ∧
    Sema.TypeKind.TYPE_INT ≠ Sema.TypeKind.TYPE_BOOL := by decide

theorem azF_if_cond (fuel : Nat) (st : Sema.SemaState) (c : Expr) (tb : List Stmt)
    (eb : Option (List Stmt)) (st' : Sema.SemaState)
    (h : Sema.analyzeStmtF fuel st (Stmt.ifStmt c tb eb) = Except.ok st') :
    Sema.analyzeExpr st c = Except.ok Sema.TypeKind.TYPE_BOOL := by
  cases fuel with
  | zero => simp [Sema.analyzeStmtF] at h
  | succ n =>
    simp only [Sema.analyzeStmtF] at h
    cases hc : Sema.analyzeExpr st c with
    | error e => rw [hc] at h; simp at h
    | ok t =>
      rw [hc] at h
      by_cases ht : t = Sema.TypeKind.TYPE_BOOL
      · rw [ht]
      · simp [ht] at h

theorem azF_while_cond (fuel : Nat) (st : Sema.SemaState) (c : Expr) (b : List Stmt)
    (st' : Sema.SemaState)
    (h : Sema.analyzeStmtF fuel st (Stmt.whileStmt c b) = Except.ok st') :
    Sema.analyzeExpr st c = Except.ok Sema.TypeKind.TYPE_BOOL := by
  cases fuel with
  | zero => simp [Sema.analyzeStmtF] at h
  | succ n =>
    simp only [Sema.analyzeStmtF] at h
    cases hc : Sema.analyzeExpr st c with
    | error e => rw [hc] at h; simp at h
    | ok t =>
      rw [hc] at h
      by_cases ht : t = Sema.TypeKind.TYPE_BOOL
      · rw [ht]
      · simp [ht] at h

theorem azF_for_bounds (fuel : Nat) (st : Sema.SemaState) (v : String) (sE eE : Expr)
    (b : List Stmt) (st' : Sema.SemaState)
    (h : Sema.analyzeStmtF fuel st (Stmt.forStmt v sE eE b) = Except.ok st') :
    ∃ stv, Sema.analyzeExpr stv sE = Except.ok Sema.TypeKind.TYPE_INT ∧
      Sema.analyzeExpr stv eE = Except.ok Sema.TypeKind.TYPE_INT := by
  cases fuel with
  | zero => simp [Sema.analyzeStmtF] at h
  | succ n =>
    simp only [Sema.analyzeStmtF] at h
    split at h
    · simp at h
    · cases hc1 : Sema.analyzeExpr
          (if Sema.existsInCurrent st.symtab v then st
           else { st with
             symtab := (Sema.tabInsert st.symtab { name := v, type := .TYPE_INT }).2 }) sE with
      | error e => rw [hc1] at h; simp at h
      | ok t1 =>
        rw [hc1] at h
        cases hc2 : Sema.analyzeExpr
            (if Sema.existsInCurrent st.symtab v then st
             else { st with
               symtab := (Sema.tabInsert st.symtab { name := v, type := .TYPE_INT }).2 }) eE with
        | error e => rw [hc2] at h; simp at h
        | ok t2 =>
          rw [hc2] at h
          by_cases ht : t1 ≠ Sema.TypeKind.TYPE_INT ∨ t2 ≠ Sema.TypeKind.TYPE_INT
          · simp only [ne_eq] at h
            rw [if_pos ht] at h
            simp at h
          · push_neg at ht
            refine ⟨(if Sema.existsInCurrent st.symtab v then st
              else { st with
                symtab := (Sema.tabInsert st.symtab { name := v, type := .TYPE_INT }).2 }),
              ?_, ?_⟩
            · rw [ht.1] at hc1; exact hc1
            · rw [ht.2] at hc2; exact hc2

/-- Claim C1, amended: statements reached through `analyzeStmt` (top-level
statements and everything nested inside them) are fully condition-checked —
an accepted `if`/`while` has a `bool` condition and an accepted `for` has
`int` bounds — but `if`/`while` conditions and `for` bounds inside function
bodies are walked by `analyzeFuncDecl`'s `walkStmt` without any type
constraint. -/
theorem claim1_conditions_checked_at_top_level :
    (∀ st c tb eb st', Sema.analyzeStmt st (Stmt.ifStmt c tb eb) = Except.ok st' →
      Sema.analyzeExpr st c = Except.ok Sema.TypeKind.TYPE_BOOL) ∧
    (∀ st c b st', Sema.analyzeStmt st (Stmt.whileStmt c b) = Except.ok st' →
      Sema.analyzeExpr st c = Except.ok Sema.TypeKind.TYPE_BOOL) ∧
    (∀ st v sE eE b st', Sema.analyzeStmt st (Stmt.forStmt v sE eE b) = Except.ok st' →
      ∃ stv, Sema.analyzeExpr stv sE = Except.ok Sema.TypeKind.TYPE_INT ∧
        Sema.analyzeExpr stv eE = Except.ok Sema.TypeKind.TYPE_INT) :=
  ⟨fun st c tb eb st' h => azF_if_cond _ st c tb eb st' h,
   fun st c b st' h => azF_while_cond _ st c b st' h,
   fun st v sE eE b st' h => azF_for_bounds _ st v sE eE b st' h⟩

/-- Witness: the amended claim C1 theorem applied to a concrete accepted
top-level `if (true) { }`. -/
theorem claim1_witness :
    Sema.analyzeExpr Sema.sema_start_state (Expr.boolLit "true") =
      Except.ok Sema.TypeKind.TYPE_BOOL :=
  claim1_conditions_checked_at_top_level.1 Sema.sema_start_state (Expr.boolLit "true")
    [] none Sema.sema_start_state (by rfl)

-- ----------------------------------------------------------------------
-- C6: return-type inference and write-back
-- ----------------------------------------------------------------------

theorem azF_varDecl_state (fuel : Nat) (st : Sema.SemaState) (ty n : String)
    (init : Option Expr) (st' : Sema.SemaState)
    (h : Sema.analyzeStmtF fuel st (Stmt.varDeclStmt ty n init) = Except.ok st') :
    st' = { st with
      symtab := (Sema.tabInsert st.symtab { name := n, type := Sema.stringToType ty }).2 } := by
  cases fuel with
  | zero => simp [Sema.analyzeStmtF] at h
  | succ k =>
    simp only [Sema.analyzeStmtF] at h
    split at h
    · simp at h
    · split at h
      · simp at h
      · split at h
        · exact ((Except.ok.inj h).symm)
        · split at h
          · simp at h
          · split at h
            · simp at h
            · exact ((Except.ok.inj h).symm)

theorem azF_assign_state (fuel : Nat) (st : Sema.SemaState) (n : String) (e : Expr)
    (st' : Sema.SemaState)
    (h : Sema.analyzeStmtF fuel st (Stmt.assignStmt n e) = Except.ok st') :
    st' = st := by
  cases fuel with
  | zero => simp [Sema.analyzeStmtF] at h
  | succ k =>
    simp only [Sema.analyzeStmtF] at h
    split at h
    · simp at h
    · split at h
      · simp at h
      · split at h
        · simp at h
        · split at h
          · simp at h
          · exact ((Except.ok.inj h).symm)

theorem azF_print_state (fuel : Nat) (st : Sema.SemaState) (e : Expr)
    (st' : Sema.SemaState)
    (h : Sema.analyzeStmtF fuel st (Stmt.printStmt e) = Except.ok st') :
    st' = st := by
  cases fuel with
  | zero => simp [Sema.analyzeStmtF] at h
  | succ k =>
    simp only [Sema.analyzeStmtF] at h
    split at h
    · simp at h
    · exact ((Except.ok.inj h).symm)

theorem azF_input_state (fuel : Nat) (st : Sema.SemaState) (n : String)
    (st' : Sema.SemaState)
    (h : Sema.analyzeStmtF fuel st (Stmt.inputStmt n) = Except.ok st') :
    st' = st := by
  cases fuel with
  | zero => simp [Sema.analyzeStmtF] at h
  | succ k =>
    simp only [Sema.analyzeStmtF] at h
    split at h
    · simp at h
    · exact ((Except.ok.inj h).symm)

theorem azF_newline_state (fuel : Nat) (st : Sema.SemaState) (st' : Sema.SemaState)
    (h : Sema.analyzeStmtF fuel st Stmt.newlineStmt = Except.ok st') :
    st' = st := by
  cases fuel with
  | zero => simp [Sema.analyzeStmtF] at h
  | succ k =>
    simp only [Sema.analyzeStmtF] at h
    exact ((Except.ok.inj h).symm)

theorem azF_funcCall_state (fuel : Nat) (st : Sema.SemaState) (n : String)
    (args : List Expr) (st' : Sema.SemaState)
    (h : Sema.analyzeStmtF fuel st (Stmt.funcCallStmt n args) = Except.ok st') :
    st' = st := by
  cases fuel with
  | zero => simp [Sema.analyzeStmtF] at h
  | succ k =>
    simp only [Sema.analyzeStmtF] at h
    exact ((Except.ok.inj h).symm)

theorem mem_topDeclNames_cons (s : Stmt) (l : List Stmt) (n : String) :
    n ∈ Sema.topDeclNames (s :: l) ↔
      n ∈ Sema.topDeclNames [s] ∨ n ∈ Sema.topDeclNames l := by
  cases s <;> simp [Sema.topDeclNames]

theorem scopeFind_cons_true (p : String × Sema.Symbol) (t : Sema.Scope) (n : String)
    (hq : (p.1 == n) = true) : Sema.scopeFind (p :: t) n = some p.2 := by
  simp only [Sema.scopeFind, List.find?_cons, hq]

theorem scopeFind_cons_false (p : String × Sema.Symbol) (t : Sema.Scope) (n : String)
    (hq : (p.1 == n) = false) : Sema.scopeFind (p :: t) n = Sema.scopeFind t n := by
  simp only [Sema.scopeFind, List.find?_cons, hq]

theorem scopeFind_eq_none_of_not_mem (sc : Sema.Scope) (n : String)
    (h : n ∉ Sema.scopeNames sc) : Sema.scopeFind sc n = none := by
  induction sc with
  | nil => rfl
  | cons p t ih =>
    simp only [Sema.scopeNames, List.map_cons, List.mem_cons, not_or] at h
    have hq : (p.1 == n) = false := by
      simp only [beq_eq_false_iff_ne, ne_eq]
      exact fun hc => h.1 hc.symm
    rw [scopeFind_cons_false p t n hq]
    exact ih (by simpa [Sema.scopeNames] using h.2)

theorem lookup_cons_skip (sc : Sema.Scope) (rest : Sema.SymTab) (n : String)
    (h : Sema.scopeFind sc n = none) :
    Sema.lookup (sc :: rest) n = Sema.lookup rest n := by
  simp [Sema.lookup, h]

theorem lookupUpdate_cons_skip (sc : Sema.Scope) (rest : Sema.SymTab) (n : String)
    (g : Sema.Symbol → Sema.Symbol) (h : Sema.scopeFind sc n = none) :
    Sema.lookupUpdate (sc :: rest) n g = sc :: Sema.lookupUpdate rest n g := by
  simp [Sema.lookupUpdate, h]

theorem scopeFind_map_update (sc : Sema.Scope) (n : String) (s0 : Sema.Symbol)
    (g : Sema.Symbol → Sema.Symbol) (h : Sema.scopeFind sc n = some s0) :
    Sema.scopeFind (sc.map (fun p => if p.1 == n then (p.1, g p.2) else p)) n =
      some (g s0) := by
  induction sc with
  | nil => simp [Sema.scopeFind] at h
  | cons p t ih =>
    cases hq : (p.1 == n) with
    | true =>
      rw [scopeFind_cons_true p t n hq] at h
      have hs : p.2 = s0 := Option.some.inj h
      rw [List.map_cons]
      rw [show (if (p.1 == n) = true then (p.1, g p.2) else p) = (p.1, g p.2) from
        if_pos hq]
      rw [scopeFind_cons_true (p.1, g p.2)
        (t.map (fun p => if p.1 == n then (p.1, g p.2) else p)) n hq]
      rw [hs]
    | false =>
      rw [scopeFind_cons_false p t n hq] at h
      rw [List.map_cons]
      rw [show (if (p.1 == n) = true then (p.1, g p.2) else p) = p from
        if_neg (by simp [hq])]
      rw [scopeFind_cons_false p
        (t.map (fun p => if p.1 == n then (p.1, g p.2) else p)) n hq]
      exact ih h

theorem lookup_lookupUpdate (tab : Sema.SymTab) (n : String) (sym : Sema.Symbol)
    (g : Sema.Symbol → Sema.Symbol) (h : Sema.lookup tab n = some sym) :
    Sema.lookup (Sema.lookupUpdate tab n g) n = some (g sym) := by
  induction tab with
  | nil => simp [Sema.lookup] at h
  | cons sc rest ih =>
    cases hf : Sema.scopeFind sc n with
    | some s0 =>
      have hs : s0 = sym := by
        simp only [Sema.lookup, hf] at h
        exact Option.some.inj h
      subst hs
      have hm := scopeFind_map_update sc n s0 g hf
      simp only [Sema.lookupUpdate, hf, Option.isSome_some, if_pos]
      simp only [Sema.lookup, hm]
    | none =>
      have h' : Sema.lookup rest n = some sym := by
        simpa only [Sema.lookup, hf] using h
      rw [lookupUpdate_cons_skip sc rest n g hf]
      rw [lookup_cons_skip sc (Sema.lookupUpdate rest n g) n hf]
      exact ih h'

theorem insertParams_shape : ∀ (ps : List FuncParam) (top : Sema.Scope)
    (rest : Sema.SymTab) (inF : Bool) (cur : Sema.TypeKind) (st2 : Sema.SemaState),
    Sema.insertParams ⟨top :: rest, inF, cur⟩ ps = Except.ok st2 →
    ∃ top', st2 = ⟨top' :: rest, inF, cur⟩ ∧
      ∀ n, n ∈ Sema.scopeNames top' →
        n ∈ Sema.scopeNames top ∨ n ∈ ps.map FuncParam.name := by
  intro ps
  induction ps with
  | nil =>
    intro top rest inF cur st2 h
    exact ⟨top, (Except.ok.inj h).symm, fun n hn => Or.inl hn⟩
  | cons p ps' ih =>
    intro top rest inF cur st2 h
    simp only [Sema.insertParams] at h
    cases hf : Sema.scopeFind top p.name with
    | some s0 =>
      rw [show Sema.tabInsert (top :: rest)
            { name := p.name, type := Sema.stringToType p.type } =
          (false, top :: rest) from by simp [Sema.tabInsert, hf]] at h
      simp at h
    | none =>
      rw [show Sema.tabInsert (top :: rest)
            { name := p.name, type := Sema.stringToType p.type } =
          (true, Sema.scopeInsert top
            { name := p.name, type := Sema.stringToType p.type } :: rest) from by
        simp [Sema.tabInsert, hf]] at h
      simp only [Bool.not_true, Bool.false_eq_true, if_false, reduceIte] at h
      obtain ⟨top', h1, h2⟩ := ih
        (Sema.scopeInsert top { name := p.name, type := Sema.stringToType p.type })
        rest inF cur st2 h
      refine ⟨top', h1, ?_⟩
      intro n hn
      rcases h2 n hn with hl | hr
      · simp only [Sema.scopeInsert, Sema.scopeNames, List.map_cons,
          List.mem_cons] at hl
        rcases hl with he | ht
        · right; simp [he]
        · left; simpa [Sema.scopeNames] using ht
      · right; simp [hr]

theorem walkF_shape : ∀ fw : Nat,
    (∀ fname s top rest inF cur st',
      Sema.walkStmtF fw fname ⟨top :: rest, inF, cur⟩ s = Except.ok st' →
      ∃ top' cur', st' = ⟨top' :: rest, inF, cur'⟩ ∧
        ∀ n, n ∈ Sema.scopeNames top' →
          n ∈ Sema.scopeNames top ∨ n ∈ Sema.topDeclNames [s]) ∧
    (∀ fname l top rest inF cur st',
      Sema.walkBlockF fw fname ⟨top :: rest, inF, cur⟩ l = Except.ok st' →
      ∃ top' cur', st' = ⟨top' :: rest, inF, cur'⟩ ∧
        ∀ n, n ∈ Sema.scopeNames top' →
          n ∈ Sema.scopeNames top ∨ n ∈ Sema.topDeclNames l) := by
  intro fw
  induction fw with
  | zero =>
    constructor
    · intro fname s top rest inF cur st' h
      simp [Sema.walkStmtF] at h
    · intro fname l top rest inF cur st' h
      simp [Sema.walkBlockF] at h
  | succ k ih =>
    constructor
    · intro fname s top rest inF cur st' h
      cases s with
      | returnStmt value =>
        cases value with
        | some e =>
          simp only [Sema.walkStmtF] at h
          split at h
          · simp at h
          · split at h
            · exact ⟨top, _, (Except.ok.inj h).symm, fun n hn => Or.inl hn⟩
            · split at h
              · simp at h
              · exact ⟨top, cur, (Except.ok.inj h).symm, fun n hn => Or.inl hn⟩
        | none =>
          simp only [Sema.walkStmtF] at h
          split at h
          · exact ⟨top, .TYPE_VOID, (Except.ok.inj h).symm, fun n hn => Or.inl hn⟩
          · split at h
            · simp at h
            · exact ⟨top, cur, (Except.ok.inj h).symm, fun n hn => Or.inl hn⟩
      | blockStmt b =>
        simp only [Sema.walkStmtF] at h
        cases hw : Sema.walkBlockF k fname ⟨[] :: top :: rest, inF, cur⟩ b with
        | error msg => rw [hw] at h; simp at h
        | ok st2 =>
          rw [hw] at h
          obtain ⟨t2, c2, he2, _⟩ := ih.2 fname b [] (top :: rest) inF cur st2 hw
          subst he2
          exact ⟨top, c2, (Except.ok.inj h).symm, fun n hn => Or.inl hn⟩
      | ifStmt c tb eb =>
        simp only [Sema.walkStmtF] at h
        cases he : Sema.analyzeExpr ⟨top :: rest, inF, cur⟩ c with
        | error msg => rw [he] at h; simp at h
        | ok t =>
          rw [he] at h
          cases hw1 : Sema.walkBlockF k fname ⟨[] :: [] :: top :: rest, inF, cur⟩ tb with
          | error msg => rw [hw1] at h; simp at h
          | ok st2 =>
            rw [hw1] at h
            obtain ⟨t1, c1, he1, _⟩ := ih.2 fname tb [] ([] :: top :: rest) inF cur st2 hw1
            subst he1
            cases eb with
            | none => exact ⟨top, c1, (Except.ok.inj h).symm, fun n hn => Or.inl hn⟩
            | some ebl =>
              simp only [List.tail_cons] at h
              cases hw2 : Sema.walkBlockF k fname ⟨[] :: [] :: top :: rest, inF, c1⟩ ebl with
              | error msg => rw [hw2] at h; simp at h
              | ok st4 =>
                rw [hw2] at h
                obtain ⟨t2, c2, he2, _⟩ :=
                  ih.2 fname ebl [] ([] :: top :: rest) inF c1 st4 hw2
                subst he2
                exact ⟨top, c2, (Except.ok.inj h).symm, fun n hn => Or.inl hn⟩
      | whileStmt c b =>
        simp only [Sema.walkStmtF] at h
        cases he : Sema.analyzeExpr ⟨top :: rest, inF, cur⟩ c with
        | error msg => rw [he] at h; simp at h
        | ok t =>
          rw [he] at h
          cases hw1 : Sema.walkBlockF k fname ⟨[] :: [] :: top :: rest, inF, cur⟩ b with
          | error msg => rw [hw1] at h; simp at h
          | ok st2 =>
            rw [hw1] at h
            obtain ⟨t1, c1, he1, _⟩ := ih.2 fname b [] ([] :: top :: rest) inF cur st2 hw1
            subst he1
            exact ⟨top, c1, (Except.ok.inj h).symm, fun n hn => Or.inl hn⟩
      | forStmt v s1 s2 b =>
        simp only [Sema.walkStmtF] at h
        cases he1 : Sema.analyzeExpr ⟨top :: rest, inF, cur⟩ s1 with
        | error msg => rw [he1] at h; simp at h
        | ok t1 =>
          rw [he1] at h
          cases he2 : Sema.analyzeExpr ⟨top :: rest, inF, cur⟩ s2 with
          | error msg => rw [he2] at h; simp at h
          | ok t2 =>
            rw [he2] at h
            cases hw1 : Sema.walkBlockF k fname ⟨[] :: [] :: top :: rest, inF, cur⟩ b with
            | error msg => rw [hw1] at h; simp at h
            | ok st2 =>
              rw [hw1] at h
              obtain ⟨t1', c1, he1', _⟩ :=
                ih.2 fname b [] ([] :: top :: rest) inF cur st2 hw1
              subst he1'
              exact ⟨top, c1, (Except.ok.inj h).symm, fun n hn => Or.inl hn⟩
      | varDeclStmt ty n init =>
        simp only [Sema.walkStmtF] at h
        have hst := azF_varDecl_state k ⟨top :: rest, inF, cur⟩ ty n init st' h
        cases hf : Sema.scopeFind top n with
        | some s0 =>
          refine ⟨top, cur, ?_, fun n' hn => Or.inl hn⟩
          rw [hst]
          simp [Sema.tabInsert, hf]
        | none =>
          refine ⟨Sema.scopeInsert top { name := n, type := Sema.stringToType ty },
            cur, ?_, ?_⟩
          · rw [hst]
            simp [Sema.tabInsert, hf]
          · intro n' hn
            simp only [Sema.scopeInsert, Sema.scopeNames, List.map_cons,
              List.mem_cons] at hn
            rcases hn with he | ht
            · right; simp [Sema.topDeclNames, he]
            · left; simpa [Sema.scopeNames] using ht
      | assignStmt n e =>
        simp only [Sema.walkStmtF] at h
        exact ⟨top, cur, azF_assign_state k _ n e st' h, fun n' hn => Or.inl hn⟩
      | printStmt e =>
        simp only [Sema.walkStmtF] at h
        exact ⟨top, cur, azF_print_state k _ e st' h, fun n' hn => Or.inl hn⟩
      | inputStmt n =>
        simp only [Sema.walkStmtF] at h
        exact ⟨top, cur, azF_input_state k _ n st' h, fun n' hn => Or.inl hn⟩
      | newlineStmt =>
        simp only [Sema.walkStmtF] at h
        exact ⟨top, cur, azF_newline_state k _ st' h, fun n' hn => Or.inl hn⟩
      | funcCallStmt n args =>
        simp only [Sema.walkStmtF] at h
        exact ⟨top, cur, azF_funcCall_state k _ n args st' h, fun n' hn => Or.inl hn⟩
    · intro fname l top rest inF cur st' h
      cases l with
      | nil =>
        simp only [Sema.walkBlockF] at h
        exact ⟨top, cur, (Except.ok.inj h).symm, fun n hn => Or.inl hn⟩
      | cons s rest2 =>
        simp only [Sema.walkBlockF] at h
        cases hw : Sema.walkStmtF k fname ⟨top :: rest, inF, cur⟩ s with
        | error msg => rw [hw] at h; simp at h
        | ok st1 =>
          rw [hw] at h
          obtain ⟨t1, c1, he1, hs1⟩ := ih.1 fname s top rest inF cur st1 hw
          subst he1
          obtain ⟨t2, c2, he2, hs2⟩ := ih.2 fname rest2 t1 rest inF c1 st' h
          refine ⟨t2, c2, he2, ?_⟩
          intro n hn
          rcases hs2 n hn with hA | hB
          · rcases hs1 n hA with hC | hD
            · exact Or.inl hC
            · exact Or.inr ((mem_topDeclNames_cons s rest2 n).mpr (Or.inl hD))
          · exact Or.inr ((mem_topDeclNames_cons s rest2 n).mpr (Or.inr hB))

theorem walkF_noret : ∀ fw : Nat,
    (∀ fh fname s st st', Sema.hasAnyReturnF fh s = false →
      Sema.walkStmtF fw fname st s = Except.ok st' →
      st'.currentFunctionReturnType = st.currentFunctionReturnType) ∧
    (∀ fh fname l st st', Sema.hasAnyReturnListF fh l = false →
      Sema.walkBlockF fw fname st l = Except.ok st' →
      st'.currentFunctionReturnType = st.currentFunctionReturnType) := by
  intro fw
  induction fw with
  | zero =>
    constructor
    · intro fh fname s st st' hr h
      simp [Sema.walkStmtF] at h
    · intro fh fname l st st' hr h
      simp [Sema.walkBlockF] at h
  | succ k ih =>
    constructor
    · intro fh fname s st st' hr h
      cases s with
      | returnStmt value =>
        cases fh with
        | zero => simp [Sema.hasAnyReturnF] at hr
        | succ m => simp [Sema.hasAnyReturnF] at hr
      | blockStmt b =>
        cases fh with
        | zero => simp [Sema.hasAnyReturnF] at hr
        | succ m =>
          simp only [Sema.hasAnyReturnF] at hr
          simp only [Sema.walkStmtF] at h
          split at h
          · simp at h
          · rename_i st2 heq
            have hc1 : st2.currentFunctionReturnType = st.currentFunctionReturnType := by
              simpa using ih.2 m fname b _ st2 hr heq
            have hst' : st' = { st2 with symtab := st2.symtab.tail } :=
              (Except.ok.inj h).symm
            rw [hst']
            simpa using hc1
      | ifStmt c tb eb =>
        cases fh with
        | zero => simp [Sema.hasAnyReturnF] at hr
        | succ m =>
          simp only [Sema.hasAnyReturnF] at hr
          rw [Bool.or_eq_false_iff] at hr
          obtain ⟨hr1, hr2⟩ := hr
          simp only [Sema.walkStmtF] at h
          split at h
          · simp at h
          · split at h
            · simp at h
            · rename_i st2 heq1
              have hc1 : st2.currentFunctionReturnType = st.currentFunctionReturnType := by
                simpa using ih.2 m fname tb _ st2 hr1 heq1
              split at h
              · have hst' := (Except.ok.inj h).symm
                rw [hst']
                simpa using hc1
              · rename_i ebl
                split at h
                · simp at h
                · rename_i st4 heq2
                  have hc2 : st4.currentFunctionReturnType =
                      st2.currentFunctionReturnType := by
                    simpa using ih.2 m fname ebl _ st4 (by simpa using hr2) heq2
                  have hst' := (Except.ok.inj h).symm
                  rw [hst']
                  simpa using hc2.trans hc1
      | whileStmt c b =>
        cases fh with
        | zero => simp [Sema.hasAnyReturnF] at hr
        | succ m =>
          simp only [Sema.hasAnyReturnF] at hr
          simp only [Sema.walkStmtF] at h
          split at h
          · simp at h
          · split at h
            · simp at h
            · rename_i st2 heq1
              have hc1 : st2.currentFunctionReturnType = st.currentFunctionReturnType := by
                simpa using ih.2 m fname b _ st2 hr heq1
              have hst' := (Except.ok.inj h).symm
              rw [hst']
              simpa using hc1
      | forStmt v s1 s2 b =>
        cases fh with
        | zero => simp [Sema.hasAnyReturnF] at hr
        | succ m =>
          simp only [Sema.hasAnyReturnF] at hr
          simp only [Sema.walkStmtF] at h
          split at h
          · simp at h
          · split at h
            · simp at h
            · split at h
              · simp at h
              · rename_i st2 heq1
                have hc1 : st2.currentFunctionReturnType =
                    st.currentFunctionReturnType := by
                  simpa using ih.2 m fname b _ st2 hr heq1
                have hst' := (Except.ok.inj h).symm
                rw [hst']
                simpa using hc1
      | varDeclStmt ty n init =>
        simp only [Sema.walkStmtF] at h
        rw [azF_varDecl_state k st ty n init st' h]
      | assignStmt n e =>
        simp only [Sema.walkStmtF] at h
        rw [azF_assign_state k st n e st' h]
      | printStmt e =>
        simp only [Sema.walkStmtF] at h
        rw [azF_print_state k st e st' h]
      | inputStmt n =>
        simp only [Sema.walkStmtF] at h
        rw [azF_input_state k st n st' h]
      | newlineStmt =>
        simp only [Sema.walkStmtF] at h
        rw [azF_newline_state k st st' h]
      | funcCallStmt n args =>
        simp only [Sema.walkStmtF] at h
        rw [azF_funcCall_state k st n args st' h]
    · intro fh fname l st st' hr h
      cases l with
      | nil =>
        simp only [Sema.walkBlockF] at h
        rw [(Except.ok.inj h).symm]
      | cons s rest2 =>
        cases fh with
        | zero => simp [Sema.hasAnyReturnListF] at hr
        | succ m =>
          simp only [Sema.hasAnyReturnListF] at hr
          rw [Bool.or_eq_false_iff] at hr
          obtain ⟨hr1, hr2⟩ := hr
          simp only [Sema.walkBlockF] at h
          split at h
          · simp at h
          · rename_i st1 heq
            have hc1 := ih.1 m fname s st st1 hr1 heq
            have hc2 := ih.2 m fname rest2 st1 st' hr2 h
            exact hc2.trans hc1

/-- Claim C6, counterexample: `func g() { return; }  func f() { return g(); return; }`
mixes a value-returning `return g()` with a valueless `return;` in `f`, yet
semantic analysis accepts the program: the walk types `g()` as `void`, records
`void` as `f`'s return type at the first `return`, and the later valueless
`return;` is consistent with `void` — mixing is not rejected. -/
theorem claim6_counterexample :
    Sema.analyzeAccepts Sema.sema_mixed_return_program = true ∧
    Sema.hasValueReturnList Sema.sema_mixed_f.body = true ∧
    Sema.hasValuelessReturnList Sema.sema_mixed_f.body = true ∧
    (match Sema.analyze Sema.sema_mixed_return_program with
      | .ok st => (Sema.lookup st.symtab "f").map Sema.Symbol.returnType
      | .error _ => none) = some Sema.TypeKind.TYPE_VOID := by decide

/-- Claim C6, amended: when `analyzeFuncDecl` succeeds on a function whose
name is not shadowed by one of its parameters or by a variable declared at
the top level of its body, the function's symbol is re-bound with a definite
(non-`unknown`) return type; if the body contains no `return` statement at
all, that type is `void`.  The claim's "mixing is rejected" part is dropped —
see the counterexample — because a value-returning `return` whose expression
has type `void` records `void`, which a later valueless `return;` matches. -/
theorem claim6_amended :
    ∀ st f st' sym,
      Sema.analyzeFuncDecl st f = Except.ok st' →
      (∀ p ∈ f.params, p.name ≠ f.name) →
      f.name ∉ Sema.topDeclNames f.body →
      Sema.lookup st.symtab f.name = some sym →
      sym.isFunction = true →
      ∃ rt, rt ≠ Sema.TypeKind.TYPE_UNKNOWN ∧
        Sema.lookup st'.symtab f.name = some { sym with returnType := rt } ∧
        (Sema.hasAnyReturnList f.body = false → rt = Sema.TypeKind.TYPE_VOID) := by
  intro st f st' sym h hparams hbody hlook hfun
  simp only [Sema.analyzeFuncDecl] at h
  split at h
  · simp at h
  · rename_i st2 hins
    split at h
    · simp at h
    · rename_i st3 hwalk
      obtain ⟨pscope, hst2, hsub1⟩ :=
        insertParams_shape f.params [] st.symtab true .TYPE_UNKNOWN st2 hins
      subst hst2
      obtain ⟨pscope', cur3, hst3, hsub2⟩ :=
        (walkF_shape (Sema.stmtsSize f.body)).2 f.name f.body pscope st.symtab true
          .TYPE_UNKNOWN st3 hwalk
      subst hst3
      have hnot : f.name ∉ Sema.scopeNames pscope' := by
        intro hmem
        rcases hsub2 f.name hmem with hA | hB
        · rcases hsub1 f.name hA with hC | hD
          · simp [Sema.scopeNames] at hC
          · obtain ⟨p, hp, hpe⟩ := List.mem_map.mp hD
            exact hparams p hp hpe
        · exact hbody hB
      have hfind : Sema.scopeFind pscope' f.name = none :=
        scopeFind_eq_none_of_not_mem _ _ hnot
      have hl3 : Sema.lookup (pscope' :: st.symtab) f.name = some sym := by
        rw [lookup_cons_skip _ _ _ hfind]
        exact hlook
      simp only [hl3, hfun, if_true] at h
      rw [lookupUpdate_cons_skip _ _ _ _ hfind] at h
      simp only [List.tail_cons] at h
      have hst' : st' = ⟨Sema.lookupUpdate st.symtab f.name
          (fun sym0 => { sym0 with returnType :=
            if cur3 ≠ Sema.TypeKind.TYPE_UNKNOWN then cur3 else Sema.TypeKind.TYPE_VOID }),
          false, Sema.TypeKind.TYPE_VOID⟩ := (Except.ok.inj h).symm
      refine ⟨if cur3 ≠ Sema.TypeKind.TYPE_UNKNOWN then cur3 else Sema.TypeKind.TYPE_VOID,
        ?_, ?_, ?_⟩
      · by_cases hc : cur3 ≠ Sema.TypeKind.TYPE_UNKNOWN
        · rw [if_pos hc]; exact hc
        · rw [if_neg hc]; decide
      · rw [hst']
        exact lookup_lookupUpdate st.symtab f.name sym _ hlook
      · intro hnoret
        have hpres := (walkF_noret (Sema.stmtsSize f.body)).2 (Sema.stmtsSize f.body)
          f.name f.body ⟨pscope :: st.symtab, true, .TYPE_UNKNOWN⟩
          ⟨pscope' :: st.symtab, true, cur3⟩ hnoret hwalk
        have hcur : cur3 = Sema.TypeKind.TYPE_UNKNOWN := hpres
        rw [hcur]
        simp

/-- Witness: the amended claim C6 theorem applied to the concrete function
`func f() { }` analyzed from a global table already holding `f`'s signature
symbol: the write-back re-binds `f` with return type `void`. -/
theorem claim6_witness :
    ∃ rt, rt ≠ Sema.TypeKind.TYPE_UNKNOWN ∧
      Sema.lookup
          [[("f", (⟨"f", .TYPE_UNKNOWN, true, false, [], .TYPE_VOID⟩ : Sema.Symbol))]] "f" =
        some { (⟨"f", .TYPE_UNKNOWN, true, false, [], .TYPE_UNKNOWN⟩ : Sema.Symbol)
            with returnType := rt } ∧
      (Sema.hasAnyReturnList ([] : List Stmt) = false → rt = Sema.TypeKind.TYPE_VOID) :=
  claim6_amended
    ⟨[[("f", ⟨"f", .TYPE_UNKNOWN, true, false, [], .TYPE_UNKNOWN⟩)]], false, .TYPE_VOID⟩
    ⟨"f", [], []⟩
    ⟨[[("f", ⟨"f", .TYPE_UNKNOWN, true, false, [], .TYPE_VOID⟩)]], false, .TYPE_VOID⟩
    ⟨"f", .TYPE_UNKNOWN, true, false, [], .TYPE_UNKNOWN⟩
    (by rfl) (by simp) (by simp [Sema.topDeclNames]) (by rfl) (by rfl)

/-- Claim C5, failing-input evaluation: calling `func f() { if (true) { return 1; } }`
returns 1, but the scope stack is one deeper after `callFunction` than
before it.  The `return` raises `ReturnException` inside the `if`'s block;
`execBlock`'s `popScope` runs after its statement loop with no catch, so the
unwind skips it, and `callFunction`'s catch pops only one scope — the leaked
block scope — leaving the parameter scope behind.  The claimed depth
invariant holds only when the body finishes normally or returns at the top
statement level of the body. -/
theorem claim5_return_in_nested_block_leaks_scope :
    Interp.resOut (Interp.callFunction 10 Interp.leak_state "f" []) =
      some (Interp.Out.oval (Interp.Value.vint 1)) ∧
    Interp.resEnvDepth (Interp.callFunction 10 Interp.leak_state "f" []) = some 2 ∧
    Interp.leak_state.env.length = 1 := by decide

/-- Claim C10: executing a `FuncCallStmt` is a no-op — `execStmt`'s
`dynamic_cast` chain has no case for it, so it falls through the trailing
"unknown stmt -> ignore", returning with the state untouched: no argument
evaluation, no call, no output, no error. -/
theorem claim10_funcCallStmt_is_noop :
    ∀ (fuel : Nat) (n : String) (args : List Expr) (st : Interp.IState),
      Interp.execStmt (fuel + 1) st (Stmt.funcCallStmt n args) =
        Interp.Res.ok Interp.Out.onorm st := by
  intro fuel n args st
  rfl
